import Mathlib

/-! medsos-crawling: job lifecycle and comment ingestion.

A shallow embedding of the two Go services of the repository

* `processing-api` (`database/postgres.go`, `handlers/data_handler.go`, `models/comment.go`)
* `crawl-trigger-api` (`database/mysql.go`, `queue/redis_queue.go`, `handlers/crawl_handler.go`,
  `models/job.go`)

Stateful code is written in explicit state-passing style.  The MySQL server and the Redis
server are external: each is represented by the data it holds plus a schedule of
outcomes (`faults`) for the statements still to come, so that every store round-trip can
either complete or fail, exactly as the Go code observes it through `err`.
-/

set_option autoImplicit false

/-! ## Values crossing `encoding/json` -/

/-- A JSON member value.  Only scalars are represented. -/
inductive JSONValue where
  | null
  | bool (b : Bool)
  | number (n : Int)
  | string (s : String)
  deriving DecidableEq, Repr

/-- A JSON object: its members, looked up by name (member order is not significant). -/
abbrev JSONObject := List (String × JSONValue)

/-- A Go `interface{}` value as it occurs in a `map[string]interface{}`.
`float64` carries the number a JSON numeral decodes to; `unsupported` stands for the
dynamic types `json.Marshal` rejects (channels, functions, ...). -/
inductive GoValue where
  | nil
  | bool (b : Bool)
  | int (n : Int)
  | float64 (n : Int)
  | string (s : String)
  | unsupported
  deriving DecidableEq, Repr

/-- A Go `map[string]interface{}` (also `gin.H`). -/
abbrev GoMap := List (String × GoValue)

/-- The value part of `json.Marshal`. -/
def jsonMarshalValue : GoValue → Except String JSONValue
  | .nil => .ok .null
  | .bool b => .ok (.bool b)
  | .int n => .ok (.number n)
  | .float64 n => .ok (.number n)
  | .string s => .ok (.string s)
  | .unsupported => .error "json: unsupported type"

/-- The function `json.Marshal` on a `map[string]interface{}`. -/
def jsonMarshal : GoMap → Except String JSONObject
  | [] => .ok []
  | (k, v) :: rest =>
    match jsonMarshalValue v with
    | .error e => .error e
    | .ok jv =>
      match jsonMarshal rest with
      | .error e => .error e
      | .ok o => .ok ((k, jv) :: o)

/-- The value part of `json.Unmarshal` into `interface{}`: every numeral becomes a
`float64`. -/
def jsonUnmarshalValue : JSONValue → GoValue
  | .null => .nil
  | .bool b => .bool b
  | .number n => .float64 n
  | .string s => .string s

/-- The function `json.Unmarshal` into a `map[string]interface{}`, on the text of a JSON
object. -/
def jsonUnmarshal (o : JSONObject) : GoMap :=
  o.map (fun kv => (kv.1, jsonUnmarshalValue kv.2))

/-- Map indexing `m[key]`: the value and the "comma ok" flag in one `Option`. -/
def GoMap.get (m : GoMap) (key : String) : Option GoValue :=
  match m.find? (fun kv => kv.1 == key) with
  | some kv => some kv.2
  | none => none

/-! ## The MySQL server (database `social_crawler`, shared by both services) -/

/-- A row of table `comments`, with the columns `SaveComment` writes. -/
structure CommentRow where
  job_id : String
  platform : String
  comment_id : String
  username : String
  user_id : String
  text : String
  timestamp : Option String
  likes : Int
  replies_count : Int
  parent_comment_id : Option String
  raw_data : Option JSONObject
  deriving DecidableEq, Repr

/-- A row of table `jobs`. -/
structure JobRow where
  id : String
  platform : String
  target_url : String
  max_comments : Int
  status : String
  error_message : Option String
  created_at : Nat
  updated_at : Nat
  deriving DecidableEq, Repr

/-- Modelled from the spec: the schema of the two tables is not among the sources.
`comments` carries the uniqueness constraint on `(job_id, comment_id)` (spec §3, "the
dedup key is the tuple (job_id, comment_id) realized as a uniqueness constraint at the
storage layer"), `jobs` is keyed by `id`, and `created_at` of a comment follows insertion
order, so `comments` is kept oldest first.  `clock` is the server time that `NOW()` and
`CURRENT_TIMESTAMP` read.  `faults` is the outcome of the statements still to be
executed, first statement first: `some msg` makes the statement fail with `msg` and
change nothing; past the end of the schedule every statement completes. -/
structure SqlDB where
  jobs : List JobRow
  comments : List CommentRow
  clock : Nat
  faults : List (Option String)
  deriving DecidableEq, Repr

/-- Take the outcome of the next statement off the schedule. -/
def SqlDB.nextFault (db : SqlDB) : Option String × SqlDB :=
  match db.faults with
  | [] => (none, db)
  | f :: rest => (f, { db with faults := rest })

/-- Is there a comment row with the key `(jobID, commentID)`? -/
def SqlDB.hasComment (db : SqlDB) (jobID commentID : String) : Bool :=
  db.comments.any (fun r => decide (r.job_id = jobID ∧ r.comment_id = commentID))

/-- The statement of `SaveComment`:
`INSERT INTO comments (...) VALUES (...) ON DUPLICATE KEY UPDATE id=id`.
The result is `RowsAffected`: 1 for a new row, 0 when the key exists (the row is set to
its current values). -/
def SqlDB.execInsertComment (db : SqlDB) (row : CommentRow) : Except String Nat × SqlDB :=
  match db.nextFault with
  | (some e, db1) => (.error e, db1)
  | (none, db1) =>
    if db1.hasComment row.job_id row.comment_id then (.ok 0, db1)
    else (.ok 1, { db1 with comments := db1.comments ++ [row] })

/-- The query of `GetCommentsByJobID`:
`SELECT ... FROM comments WHERE job_id = ? ORDER BY created_at DESC`. -/
def SqlDB.queryCommentsByJob (db : SqlDB) (jobID : String) :
    Except String (List CommentRow) × SqlDB :=
  match db.nextFault with
  | (some e, db1) => (.error e, db1)
  | (none, db1) => (.ok (db1.comments.filter (fun r => decide (r.job_id = jobID))).reverse, db1)

namespace ProcessingAPI

/-! ## processing-api/models/comment.go -/

/-- Type `models.Comment`. -/
structure Comment where
  CommentID : String
  Username : String
  UserID : String
  Text : String
  Timestamp : Option String
  Likes : Int
  RepliesCount : Int
  Platform : String
  ParentCommentID : Option String
  RawData : Option GoMap
  deriving DecidableEq, Repr

/-- Type `models.ProcessRequest`. -/
structure ProcessRequest where
  JobID : String
  Comments : List Comment
  deriving DecidableEq, Repr

/-- Type `models.ProcessResponse`. -/
structure ProcessResponse where
  Success : Bool
  Processed : Nat
  Duplicates : Nat
  Message : String
  deriving DecidableEq, Repr

/-! ## processing-api/database/postgres.go -/

/-- Type `database.MySQLDB`: the handle on the server. -/
structure MySQLDB where
  db : SqlDB
  deriving DecidableEq, Repr

/-- The first lines of `SaveComment`: `rawDataJSON` stays nil for a nil map, otherwise it
is `json.Marshal(comment.RawData)`. -/
def marshalRawData : Option GoMap → Except String (Option JSONObject)
  | none => .ok none
  | some m =>
    match jsonMarshal m with
    | .error e => .error e
    | .ok o => .ok (some o)

/-- The row `SaveComment` passes to `Exec`. -/
def commentRow (jobID : String) (comment : Comment) (rawDataJSON : Option JSONObject) :
    CommentRow :=
  { job_id := jobID
    platform := comment.Platform
    comment_id := comment.CommentID
    username := comment.Username
    user_id := comment.UserID
    text := comment.Text
    timestamp := comment.Timestamp
    likes := comment.Likes
    replies_count := comment.RepliesCount
    parent_comment_id := comment.ParentCommentID
    raw_data := rawDataJSON }

/-- Method `SaveComment`: returns `(isDuplicate, err)` and the new store. -/
def MySQLDB.SaveComment (db : MySQLDB) (jobID : String) (comment : Comment) :
    (Bool × Option String) × MySQLDB :=
  match marshalRawData comment.RawData with
  | .error e => ((false, some ("failed to marshal raw_data: " ++ e)), db)
  | .ok rawDataJSON =>
    match db.db.execInsertComment (commentRow jobID comment rawDataJSON) with
    | (.error e, db1) => ((false, some ("failed to insert comment: " ++ e)), ⟨db1⟩)
    | (.ok rowsAffected, db1) =>
      if rowsAffected = 0 then ((true, none), ⟨db1⟩)
      else ((false, none), ⟨db1⟩)

/-- The loop of `SaveComments`, with the two counters as accumulators. -/
def MySQLDB.SaveCommentsLoop (jobID : String) :
    MySQLDB → List Comment → Nat → Nat → (Nat × Nat × Option String) × MySQLDB
  | db, [], processed, duplicates => ((processed, duplicates, none), db)
  | db, comment :: rest, processed, duplicates =>
    match db.SaveComment jobID comment with
    | ((_, some err), db1) =>
      ((processed, duplicates, some ("failed to save comment: " ++ err)), db1)
    | ((isDuplicate, none), db1) =>
      if isDuplicate then MySQLDB.SaveCommentsLoop jobID db1 rest processed (duplicates + 1)
      else MySQLDB.SaveCommentsLoop jobID db1 rest (processed + 1) duplicates

/-- Method `SaveComments`: returns `(processed, duplicates, err)` and the new store. -/
def MySQLDB.SaveComments (db : MySQLDB) (jobID : String) (comments : List Comment) :
    (Nat × Nat × Option String) × MySQLDB :=
  MySQLDB.SaveCommentsLoop jobID db comments 0 0

/-- The body of the scan loop of `GetCommentsByJobID` for one row: `rows.Scan` into the
fields, then `json.Unmarshal` of a non-empty `raw_data`.  (Rows hold what `SaveComment`
wrote, for which neither call fails.) -/
def scanComment (r : CommentRow) : Comment :=
  { CommentID := r.comment_id
    Username := r.username
    UserID := r.user_id
    Text := r.text
    Timestamp := r.timestamp
    Likes := r.likes
    RepliesCount := r.replies_count
    Platform := r.platform
    ParentCommentID := r.parent_comment_id
    RawData :=
      match r.raw_data with
      | none => none
      | some o => some (jsonUnmarshal o) }

/-- Method `GetCommentsByJobID`. -/
def MySQLDB.GetCommentsByJobID (db : MySQLDB) (jobID : String) :
    Except String (List Comment) × MySQLDB :=
  match db.db.queryCommentsByJob jobID with
  | (.error e, db1) => (.error ("failed to query comments: " ++ e), ⟨db1⟩)
  | (.ok rows, db1) => (.ok (rows.map scanComment), ⟨db1⟩)

/-- Method `UpdateJobStatus` of processing-api, the statement
`INSERT INTO jobs (id, platform, target_url, max_comments, status)
VALUES (?, 'unknown', 'unknown', 0, ?)
ON DUPLICATE KEY UPDATE status = ?, updated_at = CURRENT_TIMESTAMP`. -/
def MySQLDB.UpdateJobStatus (db : MySQLDB) (jobID : String) (status : String) :
    Option String × MySQLDB :=
  match db.db.nextFault with
  | (some e, db1) => (some ("failed to update job status: " ++ e), ⟨db1⟩)
  | (none, db1) =>
    if db1.jobs.any (fun j => decide (j.id = jobID)) then
      (none, ⟨{ db1 with
        jobs := db1.jobs.map (fun j =>
          if j.id = jobID then { j with status := status, updated_at := db1.clock } else j) }⟩)
    else
      (none, ⟨{ db1 with
        jobs := db1.jobs ++
          [{ id := jobID, platform := "unknown", target_url := "unknown", max_comments := 0,
             status := status, error_message := none,
             created_at := db1.clock, updated_at := db1.clock }] }⟩)

/-! ## processing-api/handlers/data_handler.go -/

/-- The value a handler hands to `c.JSON`. -/
inductive Body where
  | H (fields : GoMap)
  | ProcessResponse (r : ProcessResponse)
  deriving DecidableEq, Repr

/-- An HTTP response: status code and body. -/
structure Response where
  code : Nat
  body : Body
  deriving DecidableEq, Repr

/-- The member `processed` of the serialized body, when it has one. -/
def Body.processed? : Body → Option GoValue
  | .H fields => GoMap.get fields "processed"
  | .ProcessResponse r => some (.int r.Processed)

/-- The member `duplicates` of the serialized body, when it has one. -/
def Body.duplicates? : Body → Option GoValue
  | .H fields => GoMap.get fields "duplicates"
  | .ProcessResponse r => some (.int r.Duplicates)

/-- Type `handlers.DataHandler`. -/
structure DataHandler where
  db : MySQLDB
  deriving DecidableEq, Repr

/-- Handler `ProcessData` (POST /api/process).  `bind` is the outcome of
`c.ShouldBindJSON(&req)`: the decoded request, or the binding error. -/
def DataHandler.ProcessData (h : DataHandler) (bind : Except String ProcessRequest) :
    Response × DataHandler :=
  match bind with
  | .error e =>
    (⟨400, .H [("error", .string "Invalid request format"), ("details", .string e)]⟩, h)
  | .ok req =>
    if req.Comments.length = 0 then
      (⟨400, .H [("error", .string "No comments provided")]⟩, h)
    else
      match h.db.SaveComments req.JobID req.Comments with
      | ((_, _, some err), db1) =>
        (⟨500, .H [("error", .string "Failed to save comments"), ("details", .string err)]⟩,
          ⟨db1⟩)
      | ((processed, duplicates, none), db1) =>
        match db1.UpdateJobStatus req.JobID "stored" with
        | (some err, db2) =>
          (⟨500, .H [("error", .string "Failed to update job status"),
              ("details", .string err)]⟩, ⟨db2⟩)
        | (none, db2) =>
          (⟨200, .ProcessResponse
              { Success := true, Processed := processed, Duplicates := duplicates,
                Message := "Comments processed successfully" }⟩, ⟨db2⟩)

/-! ### Specification vocabulary for the comment store -/

/-- The rows stored for a job, oldest first. -/
def jobComments (rows : List CommentRow) (jobID : String) : List CommentRow :=
  rows.filter (fun r => decide (r.job_id = jobID))

/-- The comment ids stored for a job. -/
def storedIDs (rows : List CommentRow) (jobID : String) : Finset String :=
  ((jobComments rows jobID).map (fun r => r.comment_id)).toFinset

/-! ### Specification vocabulary for the job status -/

/-- The row the upsert of `UpdateJobStatus` fabricates for a job that has none:
`(?, 'unknown', 'unknown', 0, ?)`, with the server time in both timestamps. -/
def placeholderRow (jobID status : String) (clock : Nat) : JobRow :=
  { id := jobID, platform := "unknown", target_url := "unknown", max_comments := 0,
    status := status, error_message := none, created_at := clock, updated_at := clock }

/-- The row of an existing job after `ON DUPLICATE KEY UPDATE status = ?, updated_at =
CURRENT_TIMESTAMP`: rows of other jobs are left as they are. -/
def restatus (jobID status : String) (clock : Nat) (j : JobRow) : JobRow :=
  if j.id = jobID then { j with status := status, updated_at := clock } else j

/-- Does the table hold a row of the job? -/
def hasJob (jobs : List JobRow) (jobID : String) : Bool :=
  jobs.any (fun j => decide (j.id = jobID))

/-- The table `jobs` after the upsert of `UpdateJobStatus` at server time `clock`. -/
def upsertJob (jobs : List JobRow) (jobID status : String) (clock : Nat) : List JobRow :=
  if hasJob jobs jobID then jobs.map (restatus jobID status clock)
  else jobs ++ [placeholderRow jobID status clock]

/-- The status of a job (of its first row) in the table. -/
def jobStatus (jobs : List JobRow) (jobID : String) : Option String :=
  match jobs.find? (fun j => decide (j.id = jobID)) with
  | some j => some j.status
  | none => none

/-! ### Sample data -/

/-- A comment of the sample batch. -/
def sampleA : Comment :=
  { CommentID := "c-1", Username := "ana", UserID := "u-1", Text := "first",
    Timestamp := none, Likes := 3, RepliesCount := 0, Platform := "instagram",
    ParentCommentID := none, RawData := none }

/-- A second comment, with a raw payload. -/
def sampleB : Comment :=
  { CommentID := "c-2", Username := "budi", UserID := "u-2", Text := "second",
    Timestamp := some "2024-05-01 10:00:00", Likes := 0, RepliesCount := 1,
    Platform := "instagram", ParentCommentID := some "c-1",
    RawData := some [("lang", .string "id")] }

/-- A comment that repeats the id of `sampleA` with other field values. -/
def sampleA2 : Comment :=
  { CommentID := "c-1", Username := "citra", UserID := "u-3", Text := "edited",
    Timestamp := none, Likes := 9, RepliesCount := 2, Platform := "instagram",
    ParentCommentID := none, RawData := none }

/-- A comment that repeats the id of `sampleB` with other field values and another raw
payload. -/
def sampleB2 : Comment :=
  { CommentID := "c-2", Username := "dewi", UserID := "u-4", Text := "second, edited",
    Timestamp := none, Likes := 7, RepliesCount := 0, Platform := "tiktok",
    ParentCommentID := none, RawData := some [("lang", .string "en"), ("pinned", .bool true)] }

/-- The batch of three records, one of which repeats a comment id. -/
def sampleBatch : List Comment := [sampleA, sampleB, sampleA2]

/-- A store that holds one comment of another job and completes every statement. -/
def sampleStore : MySQLDB :=
  ⟨{ jobs := []
     comments := [commentRow "job-Y" sampleA none]
     clock := 100
     faults := [] }⟩

/-- The same store, but its second statement fails. -/
def flakyStore : MySQLDB :=
  ⟨{ jobs := []
     comments := [commentRow "job-Y" sampleA none]
     clock := 100
     faults := [none, some "connection refused"] }⟩

/-- A job row as `CreateJob` of crawl-trigger-api wrote it, with the given status. -/
def sampleJob (status : String) : JobRow :=
  { id := "job-X", platform := "instagram", target_url := "https://www.instagram.com/p/abc/",
    max_comments := 100, status := status, error_message := none,
    created_at := 40, updated_at := 40 }

/-- A store that holds `job-X` in the given status (and a job of someone else), with no
comments yet. -/
def jobStore (status : String) : MySQLDB :=
  ⟨{ jobs := [sampleJob status, { sampleJob "running" with id := "job-Y" }]
     comments := []
     clock := 100
     faults := [] }⟩

end ProcessingAPI

/-! ## The `time` package: `time.Time`, `Format` and `Parse` with layout `time.RFC3339` -/

namespace GoTime

/-- A `time.Time`, given by its civil fields in its own zone; `offset` is the zone offset
in seconds east of UTC.  A value the clock returns has `1 ≤ month ≤ 12`,
`1 ≤ day ≤ 31`, `hour < 24`, `minute < 60`, `second < 60`. -/
structure Time where
  year : Int
  month : Nat
  day : Nat
  hour : Nat
  minute : Nat
  second : Nat
  nsec : Nat
  offset : Int
  deriving DecidableEq, Repr

/-- The zero `time.Time{}`: January 1, year 1, 00:00:00 UTC. -/
def zero : Time :=
  { year := 1, month := 1, day := 1, hour := 0, minute := 0, second := 0, nsec := 0,
    offset := 0 }

/-- The decimal digit `d` as a character. -/
def digitChar (d : Nat) : Char := Char.ofNat (48 + d)

/-- The value of a decimal digit character. -/
def digitVal (c : Char) : Option Nat :=
  if 48 ≤ c.toNat ∧ c.toNat ≤ 57 then some (c.toNat - 48) else none

/-- Two digits, as `appendInt(b, n, 2)` writes a field below 100. -/
def twoDigits (n : Nat) : List Char := [digitChar (n / 10 % 10), digitChar (n % 10)]

/-- The year, as `appendInt(b, year, 4)` writes it: at least four digits, with a sign
for a negative year. -/
def yearDigits (y : Int) : List Char :=
  if 0 ≤ y ∧ y ≤ 9999 then
    [digitChar (y.toNat / 1000 % 10), digitChar (y.toNat / 100 % 10),
      digitChar (y.toNat / 10 % 10), digitChar (y.toNat % 10)]
  else
    (if y < 0 then ['-'] else []) ++
      List.replicate (4 - (Nat.toDigits 10 y.natAbs).length) '0' ++ Nat.toDigits 10 y.natAbs

/-- The zone, layout element `Z07:00`: `Z` for offset 0, else sign, hours and minutes of
the offset truncated to minutes. -/
def zoneChars (offset : Int) : List Char :=
  if offset = 0 then ['Z']
  else
    (if Int.tdiv offset 60 < 0 then ['-'] else ['+']) ++
      twoDigits ((Int.tdiv offset 60).natAbs / 60) ++ [':'] ++
      twoDigits ((Int.tdiv offset 60).natAbs % 60)

/-- The call `t.Format(time.RFC3339)`, layout `2006-01-02T15:04:05Z07:00`. -/
def Format (t : Time) : String :=
  String.mk
    (yearDigits t.year ++ ['-'] ++ twoDigits t.month ++ ['-'] ++ twoDigits t.day ++ ['T'] ++
      twoDigits t.hour ++ [':'] ++ twoDigits t.minute ++ [':'] ++ twoDigits t.second ++
      zoneChars t.offset)

/-- The helper `parseUint` of `parseRFC3339` on two digits, with its range check. -/
def parseUint2 (a b : Char) (min max : Nat) : Option Nat :=
  match digitVal a, digitVal b with
  | some x, some y => if min ≤ 10 * x + y ∧ 10 * x + y ≤ max then some (10 * x + y) else none
  | _, _ => none

/-- The helper `parseUint` on the four digits of the year, range 0..9999. -/
def parseUint4 (a b c d : Char) : Option Nat :=
  match digitVal a, digitVal b, digitVal c, digitVal d with
  | some w, some x, some y, some z => some (1000 * w + 100 * x + 10 * y + z)
  | _, _, _, _ => none

/-- The function `isLeap`. -/
def isLeap (year : Nat) : Bool :=
  year % 4 = 0 ∧ (year % 100 ≠ 0 ∨ year % 400 = 0)

/-- The function `daysIn`. -/
def daysIn (month year : Nat) : Nat :=
  if month = 2 then (if isLeap year then 29 else 28)
  else if month = 4 ∨ month = 6 ∨ month = 9 ∨ month = 11 then 30
  else 31

/-- The fractional second `.ddd...` of `parseRFC3339`: the leading digits of `s` as
nanoseconds (first nine digits) and the rest of the input. -/
def parseFraction : List Char → Nat → Nat → Nat × List Char
  | [], _, acc => (acc, [])
  | c :: rest, scale, acc =>
    match digitVal c with
    | some d => parseFraction rest (scale / 10) (acc + d * scale)
    | none => (acc, c :: rest)

/-- The zone part of `parseRFC3339`: `Z`, or sign, two digits (0..23), a colon and two
digits (0..59). -/
def parseZone : List Char → Option Int
  | ['Z'] => some 0
  | [sign, h1, h2, colon, m1, m2] =>
    match parseUint2 h1 h2 0 23, parseUint2 m1 m2 0 59 with
    | some hr, some mm =>
      if colon = ':' then
        if sign = '-' then some (-(((hr * 60 + mm) * 60 : Nat) : Int))
        else if sign = '+' then some (((hr * 60 + mm) * 60 : Nat) : Int)
        else none
      else none
    | _, _ => none
  | _ => none

/-- The function `parseRFC3339`, the strict parser `time.Parse` uses for the layout
`time.RFC3339`.  (The lenient general parser `time.Parse` falls back on for a string
this one rejects is not represented: such a string is a parse error here.) -/
def parseRFC3339 (s : String) : Option Time :=
  match s.data with
  | y1 :: y2 :: y3 :: y4 :: c4 :: m1 :: m2 :: c7 :: d1 :: d2 :: c10 :: h1 :: h2 :: c13 ::
      n1 :: n2 :: c16 :: s1 :: s2 :: rest =>
    match parseUint4 y1 y2 y3 y4, parseUint2 m1 m2 1 12 with
    | some year, some month =>
      match parseUint2 d1 d2 1 (daysIn month year), parseUint2 h1 h2 0 23,
        parseUint2 n1 n2 0 59, parseUint2 s1 s2 0 59 with
      | some day, some hour, some min, some sec =>
        if c4 = '-' ∧ c7 = '-' ∧ c10 = 'T' ∧ c13 = ':' ∧ c16 = ':' then
          let frac : Nat × List Char :=
            match rest with
            | '.' :: f1 :: more =>
              match digitVal f1 with
              | some _ => parseFraction (f1 :: more) 100000000 0
              | none => (0, rest)
            | _ => (0, rest)
          match parseZone frac.2 with
          | some off =>
            some { year := (year : Int), month := month, day := day, hour := hour,
                   minute := min, second := sec, nsec := frac.1, offset := off }
          | none => none
        else none
      | _, _, _, _ => none
    | _, _ => none
  | _ => none

/-- The two lines `createdAt, _ := time.Parse(time.RFC3339, s)`: the error is dropped, and
on an error the value is the zero time. -/
def parseOrZero (s : String) : Time :=
  match parseRFC3339 s with
  | some t => t
  | none => zero

/-- A clock reading `Format` and `Parse` agree on: a four-digit year, a day of the
month, and a zone offset of whole minutes within a day. -/
def Time.valid (t : Time) : Prop :=
  0 ≤ t.year ∧ t.year ≤ 9999 ∧ 1 ≤ t.month ∧ t.month ≤ 12 ∧ 1 ≤ t.day ∧
  t.day ≤ daysIn t.month t.year.toNat ∧ t.hour < 24 ∧ t.minute < 60 ∧ t.second < 60 ∧
  t.offset % 60 = 0 ∧ -86400 < t.offset ∧ t.offset < 86400

instance (t : Time) : Decidable t.valid := by
  unfold Time.valid; infer_instance

/-- The time `t` at whole-second precision. -/
def Time.truncSecond (t : Time) : Time := { t with nsec := 0 }

end GoTime

/-! ## The Redis server -/

/-- The bytes of a Redis string value.  `text s` is plain text; `object o` is the text
of the JSON object `o`, kept as the object it encodes, since the code only ever passes
it to `json.Unmarshal`.  (A `text` value stands for bytes that do not encode a JSON
object.) -/
inductive RedisValue where
  | text (s : String)
  | object (o : JSONObject)
  deriving DecidableEq, Repr

/-- A string key of the Redis server: its value and the time left to live in
nanoseconds (`none`: the key does not expire). -/
structure RedisEntry where
  value : RedisValue
  ttl : Option Nat
  deriving DecidableEq, Repr

/-- The state of the Redis server: the string keys, the list at key `crawl_jobs` (left
end first), and the outcome of the commands still to come (as for `SqlDB.faults`). -/
structure RedisServer where
  keys : List (String × RedisEntry)
  crawl_jobs : List RedisValue
  faults : List (Option String)
  deriving DecidableEq, Repr

/-- Take the outcome of the next command off the schedule. -/
def RedisServer.nextFault (r : RedisServer) : Option String × RedisServer :=
  match r.faults with
  | [] => (none, r)
  | f :: rest => (f, { r with faults := rest })

/-- The entry a list of string keys holds for `key`. -/
def lookupKey (keys : List (String × RedisEntry)) (key : String) : Option RedisEntry :=
  match keys.find? (fun kv => kv.1 == key) with
  | some kv => some kv.2
  | none => none

/-- The entry stored at a string key. -/
def RedisServer.lookup (r : RedisServer) (key : String) : Option RedisEntry :=
  lookupKey r.keys key

/-- The outcome of `client.Get(ctx, key).Result()`. -/
inductive GetResult where
  | Nil
  | err (msg : String)
  | val (v : RedisValue)
  deriving DecidableEq, Repr

/-- Command `GET key`.  It leaves the entry and its time to live as they are. -/
def RedisServer.Get (r : RedisServer) (key : String) : GetResult × RedisServer :=
  match r.nextFault with
  | (some e, r1) => (.err e, r1)
  | (none, r1) =>
    match r1.lookup key with
    | none => (.Nil, r1)
    | some entry => (.val entry.value, r1)

/-- The string keys once `key` is (re)placed with `entry`. -/
def setKey (keys : List (String × RedisEntry)) (key : String) (entry : RedisEntry) :
    List (String × RedisEntry) :=
  (key, entry) :: keys.filter (fun kv => !(kv.1 == key))

/-- Command `SET key value` with an expiration: the key is (re)placed with that time to
live. -/
def RedisServer.Set (r : RedisServer) (key : String) (value : RedisValue)
    (expiration : Nat) : Option String × RedisServer :=
  match r.nextFault with
  | (some e, r1) => (some e, r1)
  | (none, r1) =>
    (none, { r1 with keys := setKey r1.keys key { value := value, ttl := some expiration } })

/-- Do the next `n` commands complete? -/
def RedisServer.completes (r : RedisServer) : Nat → Bool
  | 0 => true
  | n + 1 => r.nextFault.1.isNone && r.nextFault.2.completes n

/-- Command `LPUSH crawl_jobs value`.  It is refused when `crawl_jobs` holds a string. -/
def RedisServer.LPush (r : RedisServer) (value : RedisValue) : Option String × RedisServer :=
  match r.nextFault with
  | (some e, r1) => (some e, r1)
  | (none, r1) =>
    match r1.lookup "crawl_jobs" with
    | some _ =>
      (some "WRONGTYPE Operation against a key holding the wrong kind of value", r1)
    | none => (none, { r1 with crawl_jobs := value :: r1.crawl_jobs })

/-- The passing of `d` nanoseconds: keys whose time to live is used up are gone, the
others have `d` less to live. -/
def RedisServer.elapse (r : RedisServer) (d : Nat) : RedisServer :=
  { r with
    keys := r.keys.filterMap (fun kv =>
      match kv.2.ttl with
      | none => some kv
      | some t => if t ≤ d then none else some (kv.1, { kv.2 with ttl := some (t - d) })) }

/-- The text of a member value of a JSON object (strings between quotes, `"` and `\`
escaped). -/
def JSONValue.render : JSONValue → String
  | .null => "null"
  | .bool b => if b then "true" else "false"
  | .number n => toString n
  | .string s =>
    "\"" ++ String.mk (s.data.flatMap (fun c =>
      if c = '"' ∨ c = '\\' then ['\\', c] else [c])) ++ "\""

/-- The text of a JSON object. -/
def JSONObject.render (o : JSONObject) : String :=
  "\x7b" ++ String.intercalate ","
    (o.map (fun kv => JSONValue.render (.string kv.1) ++ ":" ++ kv.2.render)) ++ "\x7d"

/-- The bytes of a Redis value as the Go string `Result()` returns. -/
def RedisValue.str : RedisValue → String
  | .text s => s
  | .object o => JSONObject.render o

namespace CrawlTriggerAPI

/-! ## crawl-trigger-api/models/job.go -/

/-- Type `models.CrawlRequest`. -/
structure CrawlRequest where
  Platform : String
  TargetURL : String
  MaxComments : Int
  deriving DecidableEq, Repr

/-- Type `models.CrawlResponse`. -/
structure CrawlResponse where
  JobID : String
  Status : String
  deriving DecidableEq, Repr

/-- Type `models.JobStatusResponse`. -/
structure JobStatusResponse where
  JobID : String
  Platform : String
  Status : String
  CreatedAt : GoTime.Time
  UpdatedAt : GoTime.Time
  ErrorMessage : String
  deriving DecidableEq, Repr

/-! ## crawl-trigger-api/database/mysql.go -/

/-- Type `database.MySQLDB`: the handle on the server. -/
structure MySQLDB where
  db : SqlDB
  deriving DecidableEq, Repr

/-- Method `CreateJob`, the statement
`INSERT INTO jobs (id, platform, target_url, max_comments, status, created_at, updated_at)
VALUES (?, ?, ?, ?, 'queued', NOW(), NOW())`.  A row with the same `id` makes it fail. -/
def MySQLDB.CreateJob (m : MySQLDB) (jobID platform targetURL : String) (maxComments : Int) :
    Option String × MySQLDB :=
  match m.db.nextFault with
  | (some e, db1) => (some ("failed to create job: " ++ e), ⟨db1⟩)
  | (none, db1) =>
    if db1.jobs.any (fun j => decide (j.id = jobID)) then
      (some ("failed to create job: " ++ "Error 1062: Duplicate entry for key 'PRIMARY'"),
        ⟨db1⟩)
    else
      (none, ⟨{ db1 with
        jobs := db1.jobs ++
          [{ id := jobID, platform := platform, target_url := targetURL,
             max_comments := maxComments, status := "queued", error_message := none,
             created_at := db1.clock, updated_at := db1.clock }] }⟩)

/-- Method `UpdateJobStatus` of crawl-trigger-api: `UPDATE jobs SET status = ?,
[error_message = ?,] updated_at = NOW() WHERE id = ?`. -/
def MySQLDB.UpdateJobStatus (m : MySQLDB) (jobID status : String)
    (errorMessage : Option String) : Option String × MySQLDB :=
  match m.db.nextFault with
  | (some e, db1) => (some ("failed to update job status: " ++ e), ⟨db1⟩)
  | (none, db1) =>
    (none, ⟨{ db1 with
      jobs := db1.jobs.map (fun j =>
        if j.id = jobID then
          match errorMessage with
          | some msg =>
            { j with status := status, error_message := some msg, updated_at := db1.clock }
          | none => { j with status := status, updated_at := db1.clock }
        else j) }⟩)

/-! ## crawl-trigger-api/queue/redis_queue.go -/

/-- Type `queue.RedisQueue`: the client of the Redis server. -/
structure RedisQueue where
  client : RedisServer
  deriving DecidableEq, Repr

/-- The expiration `24*time.Hour`, in nanoseconds. -/
def expiration24h : Nat := 24 * 3600000000000

/-- The key `fmt.Sprintf("job_status:%s", jobID)`. -/
def statusKey (jobID : String) : String := "job_status:" ++ jobID

/-- The key `fmt.Sprintf("job_data:%s", jobID)`. -/
def dataKey (jobID : String) : String := "job_data:" ++ jobID

/-- Method `PublishJob`. -/
def RedisQueue.PublishJob (q : RedisQueue) (jobData : GoMap) : Option String × RedisQueue :=
  match jsonMarshal jobData with
  | .error e => (some ("failed to marshal job data: " ++ e), q)
  | .ok jsonData =>
    match q.client.LPush (.object jsonData) with
    | (some e, r1) => (some ("failed to push job to queue: " ++ e), ⟨r1⟩)
    | (none, r1) => (none, ⟨r1⟩)

/-- Method `SetJobStatus`. -/
def RedisQueue.SetJobStatus (q : RedisQueue) (jobID : String) (status : String) :
    Option String × RedisQueue :=
  match q.client.Set (statusKey jobID) (.text status) expiration24h with
  | (some e, r1) => (some ("failed to set job status: " ++ e), ⟨r1⟩)
  | (none, r1) => (none, ⟨r1⟩)

/-- Method `GetJobStatus` of the queue. -/
def RedisQueue.GetJobStatus (q : RedisQueue) (jobID : String) :
    Except String String × RedisQueue :=
  match q.client.Get (statusKey jobID) with
  | (.Nil, r1) => (.ok "not_found", ⟨r1⟩)
  | (.err e, r1) => (.error ("failed to get job status: " ++ e), ⟨r1⟩)
  | (.val v, r1) => (.ok v.str, ⟨r1⟩)

/-- Method `StoreJobData`. -/
def RedisQueue.StoreJobData (q : RedisQueue) (jobID : String) (jobData : GoMap) :
    Option String × RedisQueue :=
  match jsonMarshal jobData with
  | .error e => (some ("failed to marshal job data: " ++ e), q)
  | .ok jsonData =>
    match q.client.Set (dataKey jobID) (.object jsonData) expiration24h with
    | (some e, r1) => (some ("failed to store job data: " ++ e), ⟨r1⟩)
    | (none, r1) => (none, ⟨r1⟩)

/-- Method `GetJobData`. -/
def RedisQueue.GetJobData (q : RedisQueue) (jobID : String) :
    Except String GoMap × RedisQueue :=
  match q.client.Get (dataKey jobID) with
  | (.Nil, r1) => (.error "job not found", ⟨r1⟩)
  | (.err e, r1) => (.error ("failed to get job data: " ++ e), ⟨r1⟩)
  | (.val (.object o), r1) => (.ok (jsonUnmarshal o), ⟨r1⟩)
  | (.val (.text _), r1) =>
    (.error ("failed to unmarshal job data: " ++ "invalid character"), ⟨r1⟩)

/-! ## crawl-trigger-api/handlers/crawl_handler.go -/

/-- Type `handlers.CrawlHandler`. -/
structure CrawlHandler where
  queue : RedisQueue
  db : MySQLDB
  deriving DecidableEq, Repr

/-- The value a handler hands to `c.JSON`. -/
inductive Body where
  | H (fields : GoMap)
  | CrawlResponse (r : CrawlResponse)
  | JobStatusResponse (r : JobStatusResponse)
  deriving DecidableEq, Repr

/-- An HTTP response: status code and body. -/
structure Response where
  code : Nat
  body : Body
  deriving DecidableEq, Repr

/-- What a handler run ends in: a response, or a run-time panic (a failed type
assertion), which the recovery middleware of `gin.Default()` answers. -/
inductive Outcome where
  | respond (r : Response)
  | panicked (msg : String)
  deriving DecidableEq, Repr

/-- The member `job_id` of the serialized body, when it has one. -/
def Body.jobID? : Body → Option GoValue
  | .H fields => GoMap.get fields "job_id"
  | .CrawlResponse r => some (.string r.JobID)
  | .JobStatusResponse r => some (.string r.JobID)

/-- The map `validPlatforms` of `CreateCrawlJob`, as the lookup `validPlatforms[p]`. -/
def validPlatforms (platform : String) : Bool :=
  platform = "instagram" ∨ platform = "tiktok" ∨ platform = "facebook"

/-- The map `jobData` built by `CreateCrawlJob`. -/
def jobData (jobID : String) (req : CrawlRequest) (now : GoTime.Time) : GoMap :=
  [("job_id", .string jobID),
   ("platform", .string req.Platform),
   ("target_url", .string req.TargetURL),
   ("max_comments", .int req.MaxComments),
   ("status", .string "queued"),
   ("created_at", .string (GoTime.Format now)),
   ("updated_at", .string (GoTime.Format now))]

/-- Handler `CreateCrawlJob` (POST /api/crawl).  `bind` is the outcome of
`c.ShouldBindJSON(&req)`, `jobID` the value of `uuid.New().String()` and `now` the value
of `time.Now()`. -/
def CrawlHandler.CreateCrawlJob (h : CrawlHandler) (bind : Except String CrawlRequest)
    (jobID : String) (now : GoTime.Time) : Outcome × CrawlHandler :=
  match bind with
  | .error e =>
    (.respond ⟨400, .H [("error", .string "Invalid request format"),
      ("details", .string e)]⟩, h)
  | .ok req =>
    if !validPlatforms req.Platform then
      (.respond ⟨400, .H [("error",
        .string "Invalid platform. Must be one of: instagram, tiktok, facebook")]⟩, h)
    else if req.MaxComments ≤ 0 ∨ req.MaxComments > 10000 then
      (.respond ⟨400, .H [("error", .string "max_comments must be between 1 and 10000")]⟩, h)
    else
      match h.db.CreateJob jobID req.Platform req.TargetURL req.MaxComments with
      | (some err, db1) =>
        (.respond ⟨500, .H [("error", .string "Failed to create job in database"),
          ("details", .string err)]⟩, { h with db := db1 })
      | (none, db1) =>
        match h.queue.StoreJobData jobID (jobData jobID req now) with
        | (some err, q1) =>
          (.respond ⟨500, .H [("error", .string "Failed to store job data"),
            ("details", .string err)]⟩, { queue := q1, db := db1 })
        | (none, q1) =>
          match q1.SetJobStatus jobID "queued" with
          | (some err, q2) =>
            (.respond ⟨500, .H [("error", .string "Failed to set job status"),
              ("details", .string err)]⟩, { queue := q2, db := db1 })
          | (none, q2) =>
            match q2.PublishJob (jobData jobID req now) with
            | (some err, q3) =>
              (.respond ⟨500, .H [("error", .string "Failed to queue job"),
                ("details", .string err)]⟩, { queue := q3, db := db1 })
            | (none, q3) =>
              (.respond ⟨201, .CrawlResponse { JobID := jobID, Status := "queued" }⟩,
                { queue := q3, db := db1 })

/-- The type assertion `jobData[key].(string)`, which panics when the member is missing
or not a string. -/
def assertString (m : GoMap) (key : String) : Except String String :=
  match m.get key with
  | some (.string s) => .ok s
  | _ => .error "interface conversion: interface {} is not string"

/-- The comma-ok assertion `jobData[key].(string)`. -/
def assertStringOk (m : GoMap) (key : String) : Option String :=
  match m.get key with
  | some (.string s) => some s
  | _ => none

/-- Handler `GetJobStatus` (GET /api/crawl/:job_id/status); `jobID` is
`c.Param("job_id")`. -/
def CrawlHandler.GetJobStatus (h : CrawlHandler) (jobID : String) :
    Outcome × CrawlHandler :=
  match h.queue.GetJobData jobID with
  | (.error _, q1) =>
    (.respond ⟨404, .H [("error", .string "Job not found"), ("job_id", .string jobID)]⟩,
      { h with queue := q1 })
  | (.ok data, q1) =>
    match q1.GetJobStatus jobID with
    | (.error err, q2) =>
      (.respond ⟨500, .H [("error", .string "Failed to get job status"),
        ("details", .string err)]⟩, { h with queue := q2 })
    | (.ok status, q2) =>
      match assertString data "created_at" with
      | .error msg => (.panicked msg, { h with queue := q2 })
      | .ok created =>
        match assertString data "updated_at" with
        | .error msg => (.panicked msg, { h with queue := q2 })
        | .ok updated =>
          match assertString data "platform" with
          | .error msg => (.panicked msg, { h with queue := q2 })
          | .ok platform =>
            (.respond ⟨200, .JobStatusResponse
              { JobID := jobID
                Platform := platform
                Status := status
                CreatedAt := GoTime.parseOrZero created
                UpdatedAt := GoTime.parseOrZero updated
                ErrorMessage :=
                  match assertStringOk data "error_message" with
                  | some errorMsg => errorMsg
                  | none => "" }⟩, { h with queue := q2 })

/-! ### Specification vocabulary for job creation -/

/-- The JSON object `json.Marshal(jobData)` yields for the map of `CreateCrawlJob`. -/
def jobDataJSON (jobID : String) (req : CrawlRequest) (now : GoTime.Time) : JSONObject :=
  [("job_id", .string jobID),
   ("platform", .string req.Platform),
   ("target_url", .string req.TargetURL),
   ("max_comments", .number req.MaxComments),
   ("status", .string "queued"),
   ("created_at", .string (GoTime.Format now)),
   ("updated_at", .string (GoTime.Format now))]

/-- The row of `jobs` that `CreateJob` inserts at server time `clock`. -/
def queuedRow (jobID : String) (req : CrawlRequest) (clock : Nat) : JobRow :=
  { id := jobID, platform := req.Platform, target_url := req.TargetURL,
    max_comments := req.MaxComments, status := "queued", error_message := none,
    created_at := clock, updated_at := clock }

/-- An entry written with the 24 hour expiration. -/
def entry24h (v : RedisValue) : RedisEntry := { value := v, ttl := some expiration24h }

/-- The job view `GetJobStatus` answers with for the metadata written at creation and
the status `status`. -/
def createdView (jobID : String) (req : CrawlRequest) (now : GoTime.Time)
    (status : String) : JobStatusResponse :=
  { JobID := jobID, Platform := req.Platform, Status := status,
    CreatedAt := GoTime.parseOrZero (GoTime.Format now),
    UpdatedAt := GoTime.parseOrZero (GoTime.Format now),
    ErrorMessage := "" }

/-- Step 1 of `CreateCrawlJob`: the durable insert `h.db.CreateJob(...)`. -/
def step1 (h : CrawlHandler) (jobID : String) (req : CrawlRequest) :
    Option String × MySQLDB :=
  h.db.CreateJob jobID req.Platform req.TargetURL req.MaxComments

/-- Step 2 of `CreateCrawlJob`: the metadata write `h.queue.StoreJobData(jobID, jobData)`. -/
def step2 (h : CrawlHandler) (jobID : String) (req : CrawlRequest) (now : GoTime.Time) :
    Option String × RedisQueue :=
  h.queue.StoreJobData jobID (jobData jobID req now)

/-- Step 3 of `CreateCrawlJob`: the status write `h.queue.SetJobStatus(jobID, "queued")`,
on the store step 2 left. -/
def step3 (h : CrawlHandler) (jobID : String) (req : CrawlRequest) (now : GoTime.Time) :
    Option String × RedisQueue :=
  (step2 h jobID req now).2.SetJobStatus jobID "queued"

/-- Step 4 of `CreateCrawlJob`: the queue push `h.queue.PublishJob(jobData)`, on the store
step 3 left. -/
def step4 (h : CrawlHandler) (jobID : String) (req : CrawlRequest) (now : GoTime.Time) :
    Option String × RedisQueue :=
  (step3 h jobID req now).2.PublishJob (jobData jobID req now)

/-- The 500 answer of a handler: `gin.H{"error": msg, "details": details}`. -/
def failure (msg details : String) : Outcome :=
  .respond ⟨500, .H [("error", .string msg), ("details", .string details)]⟩

/-- The member `job_id` of the answer, when there is one. -/
def Outcome.jobID? : Outcome → Option GoValue
  | .respond r => r.body.jobID?
  | .panicked _ => none

/-- The handler after `d` nanoseconds have passed on the Redis server. -/
def CrawlHandler.elapse (h : CrawlHandler) (d : Nat) : CrawlHandler :=
  { h with queue := ⟨h.queue.client.elapse d⟩ }

/-- The 404 answer of `GetJobStatus`. -/
def notFound (jobID : String) : Outcome :=
  .respond ⟨404, .H [("error", .string "Job not found"), ("job_id", .string jobID)]⟩

/-! ### Sample data -/

/-- A clock reading. -/
def sampleNow : GoTime.Time :=
  { year := 2024, month := 5, day := 17, hour := 9, minute := 30, second := 5,
    nsec := 123456789, offset := 25200 }

/-- A valid request. -/
def sampleRequest : CrawlRequest :=
  { Platform := "instagram", TargetURL := "https://www.instagram.com/p/abc/",
    MaxComments := 100 }

/-- Empty stores that complete every call. -/
def sampleHandler : CrawlHandler :=
  { queue := ⟨{ keys := [], crawl_jobs := [], faults := [] }⟩
    db := ⟨{ jobs := [], comments := [], clock := 1715913005, faults := [] }⟩ }

/-- Empty stores; the Redis commands fail according to `faults`. -/
def flakyHandler (faults : List (Option String)) : CrawlHandler :=
  { queue := ⟨{ keys := [], crawl_jobs := [], faults := faults }⟩
    db := ⟨{ jobs := [], comments := [], clock := 1715913005, faults := [] }⟩ }

/-- Stores that hold the metadata of `job-1` but no status key for it. -/
def metadataOnlyHandler : CrawlHandler :=
  { queue := ⟨{ keys := [(dataKey "job-1",
        entry24h (.object (jobDataJSON "job-1" sampleRequest sampleNow)))]
                crawl_jobs := [], faults := [] }⟩
    db := ⟨{ jobs := [queuedRow "job-1" sampleRequest 1715913005], comments := [],
             clock := 1715913005, faults := [] }⟩ }

end CrawlTriggerAPI

/-! # Theorems: processing-api -/

namespace ProcessingAPI

theorem hasComment_congr (db db1 : SqlDB) (h : db1.comments = db.comments) (j k : String) :
    db1.hasComment j k = db.hasComment j k := by
  unfold SqlDB.hasComment; rw [h]

theorem SaveComment_cases (db : MySQLDB) (jobID : String) (c : Comment) :
    (∃ e, (db.SaveComment jobID c).1 = (false, some e) ∧
        (db.SaveComment jobID c).2.db.comments = db.db.comments ∧
        (db.SaveComment jobID c).2.db.jobs = db.db.jobs) ∨
    ((db.SaveComment jobID c).1 = (true, none) ∧
        db.db.hasComment jobID c.CommentID = true ∧
        (db.SaveComment jobID c).2.db.comments = db.db.comments ∧
        (db.SaveComment jobID c).2.db.jobs = db.db.jobs) ∨
    (∃ raw, marshalRawData c.RawData = .ok raw ∧
        (db.SaveComment jobID c).1 = (false, none) ∧
        db.db.hasComment jobID c.CommentID = false ∧
        (db.SaveComment jobID c).2.db.comments =
          db.db.comments ++ [commentRow jobID c raw] ∧
        (db.SaveComment jobID c).2.db.jobs = db.db.jobs) := by
  unfold MySQLDB.SaveComment SqlDB.execInsertComment SqlDB.nextFault
  cases hm : marshalRawData c.RawData with
  | error e => simp
  | ok raw =>
    cases hf : db.db.faults with
    | nil =>
      cases hc : db.db.hasComment jobID c.CommentID <;> simp [commentRow, hc]
    | cons f rest =>
      cases f with
      | some e => simp
      | none =>
        have hh : SqlDB.hasComment { db.db with faults := rest } jobID c.CommentID
            = db.db.hasComment jobID c.CommentID := hasComment_congr _ _ rfl _ _
        cases hc : db.db.hasComment jobID c.CommentID <;> simp [commentRow, hc, hh]

theorem card_step_new (A S : Finset String) (x : String) (hx : x ∉ S) :
    ((insert x A) \ S).card = 1 + (A \ insert x S).card := by
  rw [Finset.insert_sdiff_of_not_mem _ hx, Finset.sdiff_insert]
  by_cases h : x ∈ A \ S
  · rw [Finset.insert_eq_of_mem h, Finset.card_erase_of_mem h]
    have : 0 < (A \ S).card := Finset.card_pos.mpr ⟨x, h⟩
    omega
  · rw [Finset.card_insert_of_not_mem h, Finset.erase_eq_of_not_mem h]; omega

theorem hasComment_iff (db : SqlDB) (jobID k : String) :
    db.hasComment jobID k = true ↔ k ∈ storedIDs db.comments jobID := by
  unfold SqlDB.hasComment storedIDs jobComments
  simp only [List.any_eq_true, decide_eq_true_eq, List.mem_toFinset, List.mem_map,
    List.mem_filter]
  constructor
  · rintro ⟨r, hr, h1, h2⟩; exact ⟨r, ⟨hr, h1⟩, h2⟩
  · rintro ⟨r, ⟨hr, h1⟩, h2⟩; exact ⟨r, hr, h1, h2⟩

theorem jobComments_append_row (rows : List CommentRow) (jobID : String) (c : Comment)
    (raw : Option JSONObject) :
    jobComments (rows ++ [commentRow jobID c raw]) jobID =
      jobComments rows jobID ++ [commentRow jobID c raw] := by
  simp [jobComments, commentRow]

theorem storedIDs_append_row (rows : List CommentRow) (jobID : String) (c : Comment)
    (raw : Option JSONObject) :
    storedIDs (rows ++ [commentRow jobID c raw]) jobID =
      insert c.CommentID (storedIDs rows jobID) := by
  unfold storedIDs
  rw [jobComments_append_row]
  ext k
  simp only [List.map_append, List.map_cons, List.map_nil, List.toFinset_append,
    List.toFinset_cons, List.toFinset_nil, Finset.mem_union, Finset.mem_insert,
    Finset.mem_singleton, commentRow, insert_emptyc_eq]
  tauto

theorem SaveCommentsLoop_ok (jobID : String) :
    ∀ (cs : List Comment) (db : MySQLDB) (p d p1 d1 : Nat) (db1 : MySQLDB),
      MySQLDB.SaveCommentsLoop jobID db cs p d = ((p1, d1, none), db1) →
      p1 = p + (((cs.map (fun c => c.CommentID)).toFinset) \ storedIDs db.db.comments jobID).card ∧
      p1 + d1 = p + d + cs.length ∧
      storedIDs db1.db.comments jobID =
        storedIDs db.db.comments jobID ∪ (cs.map (fun c => c.CommentID)).toFinset ∧
      (jobComments db1.db.comments jobID).length =
        (jobComments db.db.comments jobID).length + (p1 - p) ∧
      db1.db.jobs = db.db.jobs := by
  intro cs
  induction cs with
  | nil =>
    intro db p d p1 d1 db1 h
    simp only [MySQLDB.SaveCommentsLoop, Prod.mk.injEq] at h
    obtain ⟨⟨rfl, rfl, -⟩, rfl⟩ := h
    simp
  | cons c rest ih =>
    intro db p d p1 d1 db1 h
    rw [MySQLDB.SaveCommentsLoop] at h
    rcases SaveComment_cases db jobID c with ⟨e, he, -, -⟩ | ⟨he, hc, hcs, hj⟩ | ⟨raw, -, he, hc, hcs, hj⟩
    · generalize db.SaveComment jobID c = r at h he
      obtain ⟨⟨b, e1⟩, db2⟩ := r
      simp only [Prod.mk.injEq] at he
      obtain ⟨rfl, rfl⟩ := he
      simp at h
    · generalize db.SaveComment jobID c = r at h he hcs hj
      obtain ⟨⟨b, e1⟩, db2⟩ := r
      simp only [Prod.mk.injEq] at he
      obtain ⟨rfl, rfl⟩ := he
      simp only [if_true] at h
      obtain ⟨h1, h2, h3, h4, h5⟩ := ih db2 p (d + 1) p1 d1 db1 h
      simp only at hcs hj
      rw [hcs] at h1 h3 h4
      have hmem : c.CommentID ∈ storedIDs db.db.comments jobID := (hasComment_iff _ _ _).mp hc
      refine ⟨?_, ?_, ?_, h4, h5.trans hj⟩
      · rw [h1, List.map_cons, List.toFinset_cons, Finset.insert_sdiff_of_mem _ hmem]
      · simp only [List.length_cons]; omega
      · rw [h3, List.map_cons, List.toFinset_cons]
        ext k
        simp only [Finset.mem_union, Finset.mem_insert]
        constructor
        · rintro (h | h)
          · exact Or.inl h
          · exact Or.inr (Or.inr h)
        · rintro (h | h | h)
          · exact Or.inl h
          · exact Or.inl (h ▸ hmem)
          · exact Or.inr h
    · generalize db.SaveComment jobID c = r at h he hcs hj
      obtain ⟨⟨b, e1⟩, db2⟩ := r
      simp only [Prod.mk.injEq] at he
      obtain ⟨rfl, rfl⟩ := he
      simp only [Bool.false_eq_true, if_false] at h
      obtain ⟨h1, h2, h3, h4, h5⟩ := ih db2 (p + 1) d p1 d1 db1 h
      simp only at hcs hj
      rw [hcs] at h1 h3 h4
      rw [storedIDs_append_row] at h1 h3
      rw [jobComments_append_row] at h4
      have hmem : c.CommentID ∉ storedIDs db.db.comments jobID := by
        intro hm
        have := (hasComment_iff _ _ _).mpr hm
        rw [hc] at this
        exact Bool.false_ne_true this
      refine ⟨?_, ?_, ?_, ?_, h5.trans hj⟩
      · rw [h1, List.map_cons, List.toFinset_cons, card_step_new _ _ _ hmem]; omega
      · simp only [List.length_cons]; omega
      · rw [h3, List.map_cons, List.toFinset_cons]
        ext k
        simp only [Finset.mem_union, Finset.mem_insert]
        tauto
      · rw [h4]
        simp only [List.length_append, List.length_singleton]
        have : p + 1 ≤ p1 := by omega
        omega


theorem SaveCommentsLoop_all_dup (jobID : String) :
    ∀ (cs : List Comment) (db : MySQLDB) (p d p1 d1 : Nat) (db1 : MySQLDB),
      (∀ c ∈ cs, c.CommentID ∈ storedIDs db.db.comments jobID) →
      MySQLDB.SaveCommentsLoop jobID db cs p d = ((p1, d1, none), db1) →
      p1 = p ∧ d1 = d + cs.length ∧ db1.db.comments = db.db.comments := by
  intro cs
  induction cs with
  | nil =>
    intro db p d p1 d1 db1 _ h
    simp only [MySQLDB.SaveCommentsLoop, Prod.mk.injEq] at h
    obtain ⟨⟨rfl, rfl, -⟩, rfl⟩ := h
    simp
  | cons c rest ih =>
    intro db p d p1 d1 db1 hall h
    rw [MySQLDB.SaveCommentsLoop] at h
    have hc0 : db.db.hasComment jobID c.CommentID = true :=
      (hasComment_iff _ _ _).mpr (hall c (List.mem_cons_self _ _))
    rcases SaveComment_cases db jobID c with
      ⟨e, he, -, -⟩ | ⟨he, -, hcs, -⟩ | ⟨raw, -, -, hc, -, -⟩
    · generalize db.SaveComment jobID c = r at h he
      obtain ⟨⟨b, e1⟩, db2⟩ := r
      simp only [Prod.mk.injEq] at he
      obtain ⟨rfl, rfl⟩ := he
      simp at h
    · generalize db.SaveComment jobID c = r at h he hcs
      obtain ⟨⟨b, e1⟩, db2⟩ := r
      simp only [Prod.mk.injEq] at he
      obtain ⟨rfl, rfl⟩ := he
      simp only [if_true] at h
      simp only at hcs
      have hall2 : ∀ x ∈ rest, x.CommentID ∈ storedIDs db2.db.comments jobID := by
        intro x hx
        rw [hcs]
        exact hall x (List.mem_cons_of_mem _ hx)
      obtain ⟨h1, h2, h3⟩ := ih db2 p (d + 1) p1 d1 db1 hall2 h
      refine ⟨h1, ?_, h3.trans hcs⟩
      simp only [List.length_cons]; omega
    · rw [hc0] at hc
      exact absurd hc (by decide)

theorem SaveCommentsLoop_append (jobID : String) :
    ∀ (pre : List Comment) (db : MySQLDB) (p d p1 d1 : Nat) (db1 : MySQLDB)
      (rest : List Comment),
      MySQLDB.SaveCommentsLoop jobID db pre p d = ((p1, d1, none), db1) →
      MySQLDB.SaveCommentsLoop jobID db (pre ++ rest) p d =
        MySQLDB.SaveCommentsLoop jobID db1 rest p1 d1 := by
  intro pre
  induction pre with
  | nil =>
    intro db p d p1 d1 db1 rest h
    simp only [MySQLDB.SaveCommentsLoop, Prod.mk.injEq] at h
    obtain ⟨⟨rfl, rfl, -⟩, rfl⟩ := h
    rfl
  | cons c cs ih =>
    intro db p d p1 d1 db1 rest h
    rw [List.cons_append, MySQLDB.SaveCommentsLoop]
    rw [MySQLDB.SaveCommentsLoop] at h
    generalize db.SaveComment jobID c = r at h
    obtain ⟨⟨b, e1⟩, db2⟩ := r
    cases e1 with
    | some e => simp at h
    | none =>
      cases b with
      | true =>
        simp only [if_true] at h ⊢
        exact ih db2 p (d + 1) p1 d1 db1 rest h
      | false =>
        simp only [Bool.false_eq_true, if_false] at h ⊢
        exact ih db2 (p + 1) d p1 d1 db1 rest h

theorem SaveComment_healthy (db : MySQLDB) (jobID : String) (c : Comment)
    (raw : Option JSONObject) (hm : marshalRawData c.RawData = .ok raw)
    (hf : db.db.nextFault.1 = none) :
    (db.SaveComment jobID c).1 = (db.db.hasComment jobID c.CommentID, none) ∧
    (db.SaveComment jobID c).2.db.comments =
      (if db.db.hasComment jobID c.CommentID then db.db.comments
       else db.db.comments ++ [commentRow jobID c raw]) := by
  unfold MySQLDB.SaveComment SqlDB.execInsertComment
  unfold SqlDB.nextFault at hf ⊢
  rw [hm]
  cases hfl : db.db.faults with
  | nil =>
    cases hc : db.db.hasComment jobID c.CommentID <;> simp [commentRow, hc]
  | cons f rest =>
    rw [hfl] at hf
    simp only at hf
    subst hf
    have hh : SqlDB.hasComment { db.db with faults := rest } jobID c.CommentID
        = db.db.hasComment jobID c.CommentID := hasComment_congr _ _ rfl _ _
    cases hc : db.db.hasComment jobID c.CommentID <;> simp [commentRow, hc, hh]

theorem jsonMarshal_supported (m : GoMap) (h : ∀ kv ∈ m, kv.2 ≠ GoValue.unsupported) :
    jsonMarshal m =
      .ok (m.map (fun kv =>
        (kv.1,
          match kv.2 with
          | .nil => JSONValue.null
          | .bool b => JSONValue.bool b
          | .int n => JSONValue.number n
          | .float64 n => JSONValue.number n
          | .string s => JSONValue.string s
          | .unsupported => JSONValue.null))) := by
  induction m with
  | nil => rfl
  | cons kv rest ih =>
    obtain ⟨k, v⟩ := kv
    have hv : v ≠ GoValue.unsupported := h (k, v) (List.mem_cons_self _ _)
    have ih2 := ih (fun kv hkv => h kv (List.mem_cons_of_mem _ hkv))
    rw [jsonMarshal, ih2]
    cases v with
    | unsupported => exact absurd rfl hv
    | nil => rfl
    | bool b => rfl
    | int n => rfl
    | float64 n => rfl
    | string s => rfl

theorem marshalRawData_supported (raw : Option GoMap)
    (h : ∀ m, raw = some m → ∀ kv ∈ m, kv.2 ≠ GoValue.unsupported) :
    marshalRawData raw =
      .ok (raw.map (fun m => m.map (fun kv =>
        (kv.1,
          match kv.2 with
          | .nil => JSONValue.null
          | .bool b => JSONValue.bool b
          | .int n => JSONValue.number n
          | .float64 n => JSONValue.number n
          | .string s => JSONValue.string s
          | .unsupported => JSONValue.null)))) := by
  cases raw with
  | none => rfl
  | some m =>
    simp only [marshalRawData, jsonMarshal_supported m (h m rfl), Option.map_some']

end ProcessingAPI

/-! # Lemmas on the RFC 3339 codec -/

namespace GoTime

theorem digitVal_digitChar (d : Nat) (h : d < 10) : digitVal (digitChar d) = some d := by
  interval_cases d <;> rfl

theorem parseUint2_twoDigits (n lo hi : Nat) (h : n < 100) (hlo : lo ≤ n) (hhi : n ≤ hi) :
    parseUint2 (digitChar (n / 10 % 10)) (digitChar (n % 10)) lo hi = some n := by
  unfold parseUint2
  rw [digitVal_digitChar _ (Nat.mod_lt _ (by decide)),
    digitVal_digitChar _ (Nat.mod_lt _ (by decide))]
  have hn : 10 * (n / 10 % 10) + n % 10 = n := by omega
  simp only [hn, hlo, hhi, and_self, if_true]

theorem parseUint4_yearDigits (y : Nat) (h : y ≤ 9999) :
    parseUint4 (digitChar (y / 1000 % 10)) (digitChar (y / 100 % 10))
      (digitChar (y / 10 % 10)) (digitChar (y % 10)) = some y := by
  unfold parseUint4
  rw [digitVal_digitChar _ (Nat.mod_lt _ (by decide)),
    digitVal_digitChar _ (Nat.mod_lt _ (by decide)),
    digitVal_digitChar _ (Nat.mod_lt _ (by decide)),
    digitVal_digitChar _ (Nat.mod_lt _ (by decide))]
  have hn : 1000 * (y / 1000 % 10) + 100 * (y / 100 % 10) + 10 * (y / 10 % 10) + y % 10 = y := by
    omega
  simp only [hn]

theorem parseZone_zoneChars (off : Int) (h60 : off % 60 = 0) (hlo : -86400 < off)
    (hhi : off < 86400) : parseZone (zoneChars off) = some off := by
  unfold zoneChars
  by_cases h0 : off = 0
  · subst h0; rfl
  · have hdvd : (60 : Int) ∣ off := Int.dvd_of_emod_eq_zero h60
    rw [Int.tdiv_eq_ediv_of_dvd hdvd]
    simp only [h0, if_false]
    by_cases hneg : off / 60 < 0
    · simp only [hneg, if_true, twoDigits, List.cons_append, List.nil_append, List.append_nil,
        List.singleton_append, parseZone]
      rw [parseUint2_twoDigits _ 0 23 (by omega) (by omega) (by omega),
        parseUint2_twoDigits _ 0 59 (by omega) (by omega) (by omega)]
      simp only [if_true]
      congr 1
      omega
    · simp only [hneg, if_false, twoDigits, List.cons_append, List.nil_append, List.append_nil,
        List.singleton_append, parseZone]
      rw [parseUint2_twoDigits _ 0 23 (by omega) (by omega) (by omega),
        parseUint2_twoDigits _ 0 59 (by omega) (by omega) (by omega)]
      have hpm : ('+' = '-') = False := by decide
      simp only [if_true, hpm, if_false]
      congr 1
      omega



theorem zoneChars_head (off : Int) :
    ∃ c tail, zoneChars off = c :: tail ∧ c ≠ '.' := by
  unfold zoneChars
  by_cases h0 : off = 0
  · exact ⟨'Z', [], by simp [h0], by decide⟩
  · by_cases hneg : Int.tdiv off 60 < 0
    · exact ⟨'-', _, by simp only [h0, hneg, if_true, if_false, List.cons_append,
        List.nil_append, List.append_assoc]; rfl, by decide⟩
    · exact ⟨'+', _, by simp only [h0, hneg, if_false, List.cons_append,
        List.nil_append, List.append_assoc]; rfl, by decide⟩

theorem parseRFC3339_Format (t : Time) (hv : t.valid) :
    parseRFC3339 (Format t) = some t.truncSecond := by
  obtain ⟨hy0, hy1, hm0, hm1, hd0, hd1, hh, hmi, hs, h60, hlo, hhi⟩ := hv
  obtain ⟨c, tail, hz, hc⟩ := zoneChars_head t.offset
  have hzone := parseZone_zoneChars t.offset h60 hlo hhi
  have hyear : (t.year.toNat : Int) = t.year := Int.toNat_of_nonneg hy0
  have hy9 : t.year.toNat ≤ 9999 := by omega
  unfold Format parseRFC3339
  simp only [yearDigits, hy0, hy1, and_self, if_true, twoDigits, List.cons_append,
    List.nil_append, List.append_assoc]
  rw [parseUint4_yearDigits _ hy9, parseUint2_twoDigits _ 1 12 (by omega) hm0 hm1]
  simp only []
  rw [parseUint2_twoDigits _ 1 _ (by unfold daysIn at hd1; split_ifs at hd1 <;> omega) hd0 hd1,
    parseUint2_twoDigits _ 0 23 (by omega) (Nat.zero_le _) (by omega),
    parseUint2_twoDigits _ 0 59 (by omega) (Nat.zero_le _) (by omega),
    parseUint2_twoDigits _ 0 59 (by omega) (Nat.zero_le _) (by omega)]
  simp only [and_self, if_true]
  rw [hz] at hzone ⊢
  have hfrac : (match c :: tail with
      | '.' :: f1 :: more =>
        match digitVal f1 with
        | some _ => parseFraction (f1 :: more) 100000000 0
        | none => (0, c :: tail)
      | _ => (0, c :: tail)) = (0, c :: tail) := by
    split
    · rename_i heq
      simp only [List.cons.injEq] at heq
      exact absurd heq.1 hc
    · rfl
  rw [hfrac]
  simp only [hzone, hyear, Time.truncSecond]

end GoTime

/-! # Lemmas on the Redis model and the crawl-trigger handlers -/
theorem RedisServer.nextFault_keys (r : RedisServer) :
    r.nextFault.2.keys = r.keys ∧ r.nextFault.2.crawl_jobs = r.crawl_jobs := by
  unfold RedisServer.nextFault
  cases r.faults <;> simp

theorem RedisServer.lookup_congr (r r1 : RedisServer) (h : r1.keys = r.keys) (key : String) :
    r1.lookup key = r.lookup key := by
  unfold RedisServer.lookup; rw [h]

theorem find_filter_ne (keys : List (String × RedisEntry)) (key other : String)
    (hne : other ≠ key) :
    (keys.filter (fun kv => !(kv.1 == key))).find? (fun kv => kv.1 == other) =
      keys.find? (fun kv => kv.1 == other) := by
  induction keys with
  | nil => rfl
  | cons kv rest ih =>
    by_cases hk : kv.1 = key
    · have hko : (kv.1 == other) = false := by
        rw [beq_eq_false_iff_ne]
        exact fun h => hne (h ▸ hk)
      have hkb : (!(kv.1 == key)) = false := by simp [hk]
      simp only [List.filter_cons, hkb, List.find?_cons, hko]
      exact ih
    · have hkb : (!(kv.1 == key)) = true := by simp [hk]
      simp only [List.filter_cons, hkb, if_true, List.find?_cons, ih]

theorem lookupKey_setKey_same (keys : List (String × RedisEntry)) (key : String)
    (e : RedisEntry) : lookupKey (setKey keys key e) key = some e := by
  simp [lookupKey, setKey]

theorem lookupKey_setKey_other (keys : List (String × RedisEntry)) (key other : String)
    (e : RedisEntry) (hne : other ≠ key) :
    lookupKey (setKey keys key e) other = lookupKey keys other := by
  unfold lookupKey setKey
  rw [List.find?_cons]
  have : ((key, e).1 == other) = false := by
    simp only [beq_eq_false_iff_ne, ne_eq]
    exact fun h => hne h.symm
  simp only [this]
  rw [find_filter_ne keys key other hne]

theorem RedisServer.Get_cases (r : RedisServer) (key : String) :
    (r.Get key).2 = r.nextFault.2 ∧
    ((∃ e, r.nextFault.1 = some e ∧ (r.Get key).1 = .err e) ∨
     (r.nextFault.1 = none ∧ r.lookup key = none ∧ (r.Get key).1 = .Nil) ∨
     (∃ entry, r.nextFault.1 = none ∧ r.lookup key = some entry ∧
        (r.Get key).1 = .val entry.value)) := by
  have hl : r.nextFault.2.lookup key = r.lookup key :=
    RedisServer.lookup_congr _ _ (RedisServer.nextFault_keys r).1 key
  unfold RedisServer.Get
  generalize r.nextFault = nf at hl ⊢
  obtain ⟨f, r1⟩ := nf
  simp only at hl
  cases f with
  | some e => simp
  | none =>
    rw [← hl]
    cases hk : r1.lookup key with
    | none => simp [hk]
    | some entry => simp [hk]

theorem RedisServer.Set_cases (r : RedisServer) (key : String) (v : RedisValue) (ex : Nat) :
    (∃ e, r.nextFault.1 = some e ∧ (r.Set key v ex).1 = some e ∧
        (r.Set key v ex).2.keys = r.keys ∧ (r.Set key v ex).2.crawl_jobs = r.crawl_jobs) ∨
    (r.nextFault.1 = none ∧ (r.Set key v ex).1 = none ∧
        (r.Set key v ex).2.keys = setKey r.keys key { value := v, ttl := some ex } ∧
        (r.Set key v ex).2.crawl_jobs = r.crawl_jobs) := by
  obtain ⟨hk, hc⟩ := RedisServer.nextFault_keys r
  unfold RedisServer.Set
  generalize r.nextFault = nf at hk hc ⊢
  obtain ⟨f, r1⟩ := nf
  simp only at hk hc
  cases f with
  | some e => simp [hk, hc]
  | none => simp [hk, hc]

theorem RedisServer.LPush_cases (r : RedisServer) (v : RedisValue) :
    (∃ e, (r.LPush v).1 = some e ∧
        (r.LPush v).2.keys = r.keys ∧ (r.LPush v).2.crawl_jobs = r.crawl_jobs) ∨
    ((r.LPush v).1 = none ∧
        (r.LPush v).2.keys = r.keys ∧ (r.LPush v).2.crawl_jobs = v :: r.crawl_jobs) := by
  obtain ⟨hk, hc⟩ := RedisServer.nextFault_keys r
  unfold RedisServer.LPush
  generalize r.nextFault = nf at hk hc ⊢
  obtain ⟨f, r1⟩ := nf
  simp only at hk hc
  cases f with
  | some e => simp [hk, hc]
  | none =>
    cases hl : r1.lookup "crawl_jobs" with
    | some _ => simp [hk, hc, hl]
    | none => simp [hk, hc, hl]

namespace CrawlTriggerAPI

theorem statusKey_ne_dataKey (a b : String) : statusKey a ≠ dataKey b := by
  intro h
  have h2 := congrArg String.data h
  simp only [statusKey, dataKey, String.data_append] at h2
  simp only [List.cons_append, List.cons.injEq, true_and] at h2
  exact absurd h2.1 (by decide)

theorem jsonMarshal_jobData (jobID : String) (req : CrawlRequest) (now : GoTime.Time) :
    jsonMarshal (jobData jobID req now) = .ok (jobDataJSON jobID req now) := rfl

end CrawlTriggerAPI

namespace CrawlTriggerAPI

theorem CreateJob_cases (m : MySQLDB) (jobID : String) (req : CrawlRequest) :
    (∃ e, (m.CreateJob jobID req.Platform req.TargetURL req.MaxComments).1 = some e ∧
        (m.CreateJob jobID req.Platform req.TargetURL req.MaxComments).2.db.jobs =
          m.db.jobs) ∨
    ((m.CreateJob jobID req.Platform req.TargetURL req.MaxComments).1 = none ∧
        (m.CreateJob jobID req.Platform req.TargetURL req.MaxComments).2.db.jobs =
          m.db.jobs ++ [queuedRow jobID req m.db.clock]) := by
  unfold MySQLDB.CreateJob SqlDB.nextFault
  cases hf : m.db.faults with
  | nil =>
    cases hc : m.db.jobs.any (fun j => decide (j.id = jobID)) <;> simp [hc, queuedRow]
  | cons f rest =>
    cases f with
    | some e => simp
    | none =>
      cases hc : m.db.jobs.any (fun j => decide (j.id = jobID)) <;> simp [hc, queuedRow]

theorem StoreJobData_cases (q : RedisQueue) (jobID : String) (req : CrawlRequest)
    (now : GoTime.Time) :
    (∃ e, (q.StoreJobData jobID (jobData jobID req now)).1 = some e ∧
        (q.StoreJobData jobID (jobData jobID req now)).2.client.keys = q.client.keys ∧
        (q.StoreJobData jobID (jobData jobID req now)).2.client.crawl_jobs =
          q.client.crawl_jobs) ∨
    ((q.StoreJobData jobID (jobData jobID req now)).1 = none ∧
        (q.StoreJobData jobID (jobData jobID req now)).2.client.keys =
          setKey q.client.keys (dataKey jobID) (entry24h (.object (jobDataJSON jobID req now))) ∧
        (q.StoreJobData jobID (jobData jobID req now)).2.client.crawl_jobs =
          q.client.crawl_jobs) := by
  unfold RedisQueue.StoreJobData
  rw [jsonMarshal_jobData]
  simp only
  rcases RedisServer.Set_cases q.client (dataKey jobID) (.object (jobDataJSON jobID req now))
      expiration24h with ⟨e, -, h1, h2, h3⟩ | ⟨-, h1, h2, h3⟩
  · generalize q.client.Set (dataKey jobID) (.object (jobDataJSON jobID req now))
      expiration24h = r at h1 h2 h3 ⊢
    obtain ⟨f, r1⟩ := r
    simp only at h1 h2 h3
    subst h1
    exact Or.inl ⟨_, rfl, h2, h3⟩
  · generalize q.client.Set (dataKey jobID) (.object (jobDataJSON jobID req now))
      expiration24h = r at h1 h2 h3 ⊢
    obtain ⟨f, r1⟩ := r
    simp only at h1 h2 h3
    subst h1
    exact Or.inr ⟨rfl, h2, h3⟩

theorem SetJobStatus_cases (q : RedisQueue) (jobID status : String) :
    (∃ e, (q.SetJobStatus jobID status).1 = some e ∧
        (q.SetJobStatus jobID status).2.client.keys = q.client.keys ∧
        (q.SetJobStatus jobID status).2.client.crawl_jobs = q.client.crawl_jobs) ∨
    ((q.SetJobStatus jobID status).1 = none ∧
        (q.SetJobStatus jobID status).2.client.keys =
          setKey q.client.keys (statusKey jobID) (entry24h (.text status)) ∧
        (q.SetJobStatus jobID status).2.client.crawl_jobs = q.client.crawl_jobs) := by
  unfold RedisQueue.SetJobStatus
  rcases RedisServer.Set_cases q.client (statusKey jobID) (.text status)
      expiration24h with ⟨e, -, h1, h2, h3⟩ | ⟨-, h1, h2, h3⟩
  · generalize q.client.Set (statusKey jobID) (.text status) expiration24h = r at h1 h2 h3 ⊢
    obtain ⟨f, r1⟩ := r
    simp only at h1 h2 h3
    subst h1
    exact Or.inl ⟨_, rfl, h2, h3⟩
  · generalize q.client.Set (statusKey jobID) (.text status) expiration24h = r at h1 h2 h3 ⊢
    obtain ⟨f, r1⟩ := r
    simp only at h1 h2 h3
    subst h1
    exact Or.inr ⟨rfl, h2, h3⟩

theorem PublishJob_cases (q : RedisQueue) (jobID : String) (req : CrawlRequest)
    (now : GoTime.Time) :
    (∃ e, (q.PublishJob (jobData jobID req now)).1 = some e ∧
        (q.PublishJob (jobData jobID req now)).2.client.keys = q.client.keys ∧
        (q.PublishJob (jobData jobID req now)).2.client.crawl_jobs = q.client.crawl_jobs) ∨
    ((q.PublishJob (jobData jobID req now)).1 = none ∧
        (q.PublishJob (jobData jobID req now)).2.client.keys = q.client.keys ∧
        (q.PublishJob (jobData jobID req now)).2.client.crawl_jobs =
          .object (jobDataJSON jobID req now) :: q.client.crawl_jobs) := by
  unfold RedisQueue.PublishJob
  rw [jsonMarshal_jobData]
  simp only
  rcases RedisServer.LPush_cases q.client (.object (jobDataJSON jobID req now))
    with ⟨e, h1, h2, h3⟩ | ⟨h1, h2, h3⟩
  · generalize q.client.LPush (.object (jobDataJSON jobID req now)) = r at h1 h2 h3 ⊢
    obtain ⟨f, r1⟩ := r
    simp only at h1 h2 h3
    subst h1
    exact Or.inl ⟨_, rfl, h2, h3⟩
  · generalize q.client.LPush (.object (jobDataJSON jobID req now)) = r at h1 h2 h3 ⊢
    obtain ⟨f, r1⟩ := r
    simp only at h1 h2 h3
    subst h1
    exact Or.inr ⟨rfl, h2, h3⟩

/-- The status `RedisQueue.GetJobStatus` reports for the entry at the status key. -/
theorem queue_GetJobStatus_ok (q : RedisQueue) (jobID : String)
    (hf : q.client.nextFault.1 = none) :
    (q.GetJobStatus jobID).1 =
      .ok (match q.client.lookup (statusKey jobID) with
           | some entry => entry.value.str
           | none => "not_found") := by
  unfold RedisQueue.GetJobStatus
  obtain ⟨-, h⟩ := RedisServer.Get_cases q.client (statusKey jobID)
  rcases h with ⟨e, he, -⟩ | ⟨-, hl, hg⟩ | ⟨entry, -, hl, hg⟩
  · rw [hf] at he; exact Option.noConfusion he
  · generalize q.client.Get (statusKey jobID) = r at hg ⊢
    obtain ⟨g, r1⟩ := r
    simp only at hg
    subst hg
    simp only [hl]
  · generalize q.client.Get (statusKey jobID) = r at hg ⊢
    obtain ⟨g, r1⟩ := r
    simp only at hg
    subst hg
    simp only [hl]

theorem GetJobStatus_absent (h : CrawlHandler) (jobID : String)
    (habs : h.queue.client.lookup (dataKey jobID) = none) :
    (h.GetJobStatus jobID).1 = notFound jobID ∧ (h.GetJobStatus jobID).2.db = h.db := by
  unfold CrawlHandler.GetJobStatus RedisQueue.GetJobData
  obtain ⟨-, hc⟩ := RedisServer.Get_cases h.queue.client (dataKey jobID)
  rcases hc with ⟨e, -, hg⟩ | ⟨-, -, hg⟩ | ⟨entry, -, hl, -⟩
  · generalize h.queue.client.Get (dataKey jobID) = r at hg ⊢
    obtain ⟨g, r1⟩ := r
    simp only at hg
    subst hg
    exact ⟨rfl, rfl⟩
  · generalize h.queue.client.Get (dataKey jobID) = r at hg ⊢
    obtain ⟨g, r1⟩ := r
    simp only at hg
    subst hg
    exact ⟨rfl, rfl⟩
  · rw [habs] at hl; exact Option.noConfusion hl

theorem GetJobStatus_view (h : CrawlHandler) (jobID : String) (entry : RedisEntry)
    (o : JSONObject) (created updated platform : String)
    (hmeta : h.queue.client.lookup (dataKey jobID) = some entry)
    (hobj : entry.value = .object o)
    (hc : assertString (jsonUnmarshal o) "created_at" = .ok created)
    (hu : assertString (jsonUnmarshal o) "updated_at" = .ok updated)
    (hp : assertString (jsonUnmarshal o) "platform" = .ok platform)
    (hreads : h.queue.client.completes 2 = true) :
    (h.GetJobStatus jobID).1 =
      .respond ⟨200, .JobStatusResponse
        { JobID := jobID
          Platform := platform
          Status :=
            match h.queue.client.lookup (statusKey jobID) with
            | some e => e.value.str
            | none => "not_found"
          CreatedAt := GoTime.parseOrZero created
          UpdatedAt := GoTime.parseOrZero updated
          ErrorMessage :=
            match assertStringOk (jsonUnmarshal o) "error_message" with
            | some errorMsg => errorMsg
            | none => "" }⟩ ∧
    (h.GetJobStatus jobID).2.db = h.db := by
  simp only [RedisServer.completes, Bool.and_true, Bool.and_eq_true, Option.isNone_iff_eq_none]
    at hreads
  obtain ⟨hf1, hf2⟩ := hreads
  unfold CrawlHandler.GetJobStatus RedisQueue.GetJobData
  obtain ⟨hst, hcases⟩ := RedisServer.Get_cases h.queue.client (dataKey jobID)
  rcases hcases with ⟨e, he, -⟩ | ⟨-, hl, -⟩ | ⟨entry2, -, hl, hg⟩
  · rw [hf1] at he; exact Option.noConfusion he
  · rw [hmeta] at hl; exact Option.noConfusion hl
  · rw [hmeta] at hl
    obtain rfl := Option.some.inj hl
    rw [hobj] at hg
    generalize h.queue.client.Get (dataKey jobID) = r at hg hst ⊢
    obtain ⟨g, r1⟩ := r
    simp only at hg hst
    subst hg
    subst hst
    simp only
    have hq := queue_GetJobStatus_ok ⟨h.queue.client.nextFault.2⟩ jobID hf2
    have hlk : h.queue.client.nextFault.2.lookup (statusKey jobID) =
        h.queue.client.lookup (statusKey jobID) :=
      RedisServer.lookup_congr _ _ (RedisServer.nextFault_keys _).1 _
    simp only [hlk] at hq
    generalize RedisQueue.GetJobStatus ⟨h.queue.client.nextFault.2⟩ jobID = r2 at hq ⊢
    obtain ⟨s, q2⟩ := r2
    simp only at hq
    subst hq
    simp only [hc, hu, hp, and_self]

end CrawlTriggerAPI

namespace CrawlTriggerAPI

theorem CreateCrawlJob_steps (h : CrawlHandler) (req : CrawlRequest) (jobID : String)
    (now : GoTime.Time) (hplat : validPlatforms req.Platform = true)
    (hmax : 0 < req.MaxComments ∧ req.MaxComments ≤ 10000) :
    (∀ e, (step1 h jobID req).1 = some e →
      h.CreateCrawlJob (.ok req) jobID now =
        (failure "Failed to create job in database" e,
          { h with db := (step1 h jobID req).2 })) ∧
    ((step1 h jobID req).1 = none →
      (∀ e, (step2 h jobID req now).1 = some e →
        h.CreateCrawlJob (.ok req) jobID now =
          (failure "Failed to store job data" e,
            { queue := (step2 h jobID req now).2, db := (step1 h jobID req).2 })) ∧
      ((step2 h jobID req now).1 = none →
        (∀ e, (step3 h jobID req now).1 = some e →
          h.CreateCrawlJob (.ok req) jobID now =
            (failure "Failed to set job status" e,
              { queue := (step3 h jobID req now).2, db := (step1 h jobID req).2 })) ∧
        ((step3 h jobID req now).1 = none →
          (∀ e, (step4 h jobID req now).1 = some e →
            h.CreateCrawlJob (.ok req) jobID now =
              (failure "Failed to queue job" e,
                { queue := (step4 h jobID req now).2, db := (step1 h jobID req).2 })) ∧
          ((step4 h jobID req now).1 = none →
            h.CreateCrawlJob (.ok req) jobID now =
              (.respond ⟨201, .CrawlResponse { JobID := jobID, Status := "queued" }⟩,
                { queue := (step4 h jobID req now).2, db := (step1 h jobID req).2 }))))) := by
  unfold step4 step3 step2 step1 failure
  have hrange : ¬ (req.MaxComments ≤ 0 ∨ req.MaxComments > 10000) := by omega
  unfold CrawlHandler.CreateCrawlJob
  simp only [hplat, Bool.not_true, Bool.false_eq_true, if_false, hrange]
  generalize h.db.CreateJob jobID req.Platform req.TargetURL req.MaxComments = r1
  obtain ⟨e1, db1⟩ := r1
  cases e1 with
  | some e1 => simp
  | none =>
    simp only [true_implies, reduceCtorEq, false_implies, implies_true, true_and]
    generalize h.queue.StoreJobData jobID (jobData jobID req now) = r2
    obtain ⟨e2, q2⟩ := r2
    cases e2 with
    | some e2 => simp
    | none =>
      simp only [true_implies, reduceCtorEq, false_implies, implies_true, true_and]
      generalize q2.SetJobStatus jobID "queued" = r3
      obtain ⟨e3, q3⟩ := r3
      cases e3 with
      | some e3 => simp
      | none =>
        simp only [true_implies, reduceCtorEq, false_implies, implies_true, true_and]
        generalize q3.PublishJob (jobData jobID req now) = r4
        obtain ⟨e4, q4⟩ := r4
        cases e4 with
        | some e4 => simp
        | none => simp

end CrawlTriggerAPI

namespace CrawlTriggerAPI

theorem lookupKey_elapse (keys : List (String × RedisEntry)) (key : String) (v : RedisValue)
    (t d : Nat) (hd : d < t) (h : lookupKey keys key = some { value := v, ttl := some t }) :
    lookupKey
      (keys.filterMap (fun kv =>
        match kv.2.ttl with
        | none => some kv
        | some t => if t ≤ d then none else some (kv.1, { kv.2 with ttl := some (t - d) })))
      key = some { value := v, ttl := some (t - d) } := by
  induction keys with
  | nil => simp [lookupKey] at h
  | cons kv rest ih =>
    unfold lookupKey at h ih ⊢
    by_cases hk : kv.1 = key
    · have hb : (kv.1 == key) = true := by simp [hk]
      simp only [List.find?_cons, hb, Option.some.injEq] at h
      obtain ⟨k, e⟩ := kv
      simp only at h hk
      subst h
      have hnot : ¬ t ≤ d := by omega
      simp [List.filterMap_cons, hnot, hk]
    · have hb : (kv.1 == key) = false := by simp [hk]
      simp only [List.find?_cons, hb] at h
      have ih2 := ih h
      rw [List.filterMap_cons]
      cases httl : kv.2.ttl with
      | none =>
        simp only [List.find?_cons, hb]
        exact ih2
      | some t2 =>
        by_cases hle : t2 ≤ d
        · simp only [hle, if_true]
          exact ih2
        · simp only [hle, if_false, List.find?_cons, hb]
          exact ih2

theorem assert_created (jobID : String) (req : CrawlRequest) (now : GoTime.Time) :
    assertString (jsonUnmarshal (jobDataJSON jobID req now)) "created_at" =
      .ok (GoTime.Format now) ∧
    assertString (jsonUnmarshal (jobDataJSON jobID req now)) "updated_at" =
      .ok (GoTime.Format now) ∧
    assertString (jsonUnmarshal (jobDataJSON jobID req now)) "platform" = .ok req.Platform ∧
    assertStringOk (jsonUnmarshal (jobDataJSON jobID req now)) "error_message" = none :=
  ⟨rfl, rfl, rfl, rfl⟩

end CrawlTriggerAPI

namespace CrawlTriggerAPI

theorem step1_effect (h : CrawlHandler) (jobID : String) (req : CrawlRequest) :
    (∀ e, (step1 h jobID req).1 = some e →
      (step1 h jobID req).2.db.jobs = h.db.db.jobs) ∧
    ((step1 h jobID req).1 = none →
      (step1 h jobID req).2.db.jobs =
        h.db.db.jobs ++ [queuedRow jobID req h.db.db.clock]) := by
  unfold step1
  rcases CreateJob_cases h.db jobID req with ⟨e, he, hj⟩ | ⟨hn, hj⟩
  · exact ⟨fun _ _ => hj, fun h0 => by rw [he] at h0; exact Option.noConfusion h0⟩
  · exact ⟨fun e he => by rw [hn] at he; exact Option.noConfusion he, fun _ => hj⟩

theorem step2_effect (h : CrawlHandler) (jobID : String) (req : CrawlRequest)
    (now : GoTime.Time) :
    ((step2 h jobID req now).1 ≠ none →
        (step2 h jobID req now).2.client.keys = h.queue.client.keys) ∧
      ((step2 h jobID req now).1 = none →
        (step2 h jobID req now).2.client.keys =
          setKey h.queue.client.keys (dataKey jobID)
            (entry24h (.object (jobDataJSON jobID req now)))) ∧
      (step2 h jobID req now).2.client.crawl_jobs = h.queue.client.crawl_jobs := by
  unfold step2
  rcases StoreJobData_cases h.queue jobID req now with ⟨e, he, hk, hc⟩ | ⟨he, hk, hc⟩
  · exact ⟨fun _ => hk, fun hn => by rw [he] at hn; exact Option.noConfusion hn, hc⟩
  · exact ⟨fun hn => absurd he hn, fun _ => hk, hc⟩

theorem step3_effect (h : CrawlHandler) (jobID : String) (req : CrawlRequest)
    (now : GoTime.Time) :
    ((step3 h jobID req now).1 ≠ none →
        (step3 h jobID req now).2.client.keys = (step2 h jobID req now).2.client.keys) ∧
      ((step3 h jobID req now).1 = none →
        (step3 h jobID req now).2.client.keys =
          setKey (step2 h jobID req now).2.client.keys (statusKey jobID)
            (entry24h (.text "queued"))) ∧
      (step3 h jobID req now).2.client.crawl_jobs =
        (step2 h jobID req now).2.client.crawl_jobs := by
  unfold step3
  rcases SetJobStatus_cases (step2 h jobID req now).2 jobID "queued" with
    ⟨e, he, hk, hc⟩ | ⟨he, hk, hc⟩
  · exact ⟨fun _ => hk, fun hn => by rw [he] at hn; exact Option.noConfusion hn, hc⟩
  · exact ⟨fun hn => absurd he hn, fun _ => hk, hc⟩

theorem step4_effect (h : CrawlHandler) (jobID : String) (req : CrawlRequest)
    (now : GoTime.Time) :
    (step4 h jobID req now).2.client.keys = (step3 h jobID req now).2.client.keys ∧
      ((step4 h jobID req now).1 ≠ none →
        (step4 h jobID req now).2.client.crawl_jobs =
          (step3 h jobID req now).2.client.crawl_jobs) ∧
      ((step4 h jobID req now).1 = none →
        (step4 h jobID req now).2.client.crawl_jobs =
          .object (jobDataJSON jobID req now) ::
            (step3 h jobID req now).2.client.crawl_jobs) := by
  unfold step4
  rcases PublishJob_cases (step3 h jobID req now).2 jobID req now with
    ⟨e, he, hk, hc⟩ | ⟨he, hk, hc⟩
  · exact ⟨hk, fun _ => hc, fun hn => by rw [he] at hn; exact Option.noConfusion hn⟩
  · exact ⟨hk, fun hn => absurd he hn, fun _ => hc⟩

theorem failure_ne_created (msg e jobID : String) :
    failure msg e ≠ .respond ⟨201, .CrawlResponse { JobID := jobID, Status := "queued" }⟩ := by
  intro h
  unfold failure at h
  injection h with h1
  injection h1 with h2 _
  exact absurd h2 (by decide)

end CrawlTriggerAPI

/-! # Lemmas on the job status upsert -/

namespace ProcessingAPI

theorem SaveComment_frame (db : MySQLDB) (jobID : String) (c : Comment) :
    (db.SaveComment jobID c).2.db.jobs = db.db.jobs ∧
    (db.SaveComment jobID c).2.db.clock = db.db.clock := by
  unfold MySQLDB.SaveComment SqlDB.execInsertComment SqlDB.nextFault
  cases marshalRawData c.RawData with
  | error e => simp
  | ok raw =>
    cases hf : db.db.faults with
    | nil =>
      cases hc : db.db.hasComment jobID c.CommentID <;> simp [commentRow, hc]
    | cons f rest =>
      cases f with
      | some e => simp
      | none =>
        have hh : SqlDB.hasComment { db.db with faults := rest } jobID c.CommentID
            = db.db.hasComment jobID c.CommentID := hasComment_congr _ _ rfl _ _
        cases hc : db.db.hasComment jobID c.CommentID <;> simp [commentRow, hc, hh]

theorem SaveCommentsLoop_frame (jobID : String) :
    ∀ (cs : List Comment) (db : MySQLDB) (p d : Nat),
      (MySQLDB.SaveCommentsLoop jobID db cs p d).2.db.jobs = db.db.jobs ∧
      (MySQLDB.SaveCommentsLoop jobID db cs p d).2.db.clock = db.db.clock := by
  intro cs
  induction cs with
  | nil => intro db p d; exact ⟨rfl, rfl⟩
  | cons c rest ih =>
    intro db p d
    rw [MySQLDB.SaveCommentsLoop]
    have hfr := SaveComment_frame db jobID c
    generalize db.SaveComment jobID c = r at hfr
    obtain ⟨⟨b, e1⟩, db2⟩ := r
    simp only at hfr
    cases e1 with
    | some e => exact hfr
    | none =>
      cases b with
      | true =>
        simp only [if_true]
        exact ⟨(ih db2 p (d + 1)).1.trans hfr.1, (ih db2 p (d + 1)).2.trans hfr.2⟩
      | false =>
        simp only [Bool.false_eq_true, if_false]
        exact ⟨(ih db2 (p + 1) d).1.trans hfr.1, (ih db2 (p + 1) d).2.trans hfr.2⟩

theorem UpdateJobStatus_cases (db : MySQLDB) (jobID status : String) :
    (∃ e, db.db.nextFault.1 = some e ∧
        (db.UpdateJobStatus jobID status).1 = some ("failed to update job status: " ++ e) ∧
        (db.UpdateJobStatus jobID status).2.db.jobs = db.db.jobs) ∨
    (db.db.nextFault.1 = none ∧ (db.UpdateJobStatus jobID status).1 = none ∧
        (db.UpdateJobStatus jobID status).2.db.jobs =
          upsertJob db.db.jobs jobID status db.db.clock) := by
  unfold MySQLDB.UpdateJobStatus SqlDB.nextFault upsertJob hasJob
  cases hf : db.db.faults with
  | nil =>
    cases hc : db.db.jobs.any (fun j => decide (j.id = jobID)) <;>
      simp [hc, placeholderRow, restatus]
  | cons f rest =>
    cases f with
    | some e => simp
    | none =>
      cases hc : db.db.jobs.any (fun j => decide (j.id = jobID)) <;>
        simp [hc, placeholderRow, restatus]


theorem ProcessData_jobs (h : DataHandler) (req : ProcessRequest) (hne : req.Comments ≠ []) :
    (∀ e, (h.db.SaveComments req.JobID req.Comments).1.2.2 = some e →
      (h.ProcessData (.ok req)).1 =
        ⟨500, .H [("error", .string "Failed to save comments"), ("details", .string e)]⟩ ∧
      (h.ProcessData (.ok req)).2.db.db.jobs = h.db.db.jobs) ∧
    ((h.db.SaveComments req.JobID req.Comments).1.2.2 = none →
      (∀ e, (h.db.SaveComments req.JobID req.Comments).2.db.nextFault.1 = some e →
        (h.ProcessData (.ok req)).1 =
          ⟨500, .H [("error", .string "Failed to update job status"),
            ("details", .string ("failed to update job status: " ++ e))]⟩ ∧
        (h.ProcessData (.ok req)).2.db.db.jobs = h.db.db.jobs) ∧
      ((h.db.SaveComments req.JobID req.Comments).2.db.nextFault.1 = none →
        (h.ProcessData (.ok req)).1 =
          ⟨200, .ProcessResponse
            { Success := true
              Processed := (h.db.SaveComments req.JobID req.Comments).1.1
              Duplicates := (h.db.SaveComments req.JobID req.Comments).1.2.1
              Message := "Comments processed successfully" }⟩ ∧
        (h.ProcessData (.ok req)).2.db.db.jobs =
          upsertJob h.db.db.jobs req.JobID "stored" h.db.db.clock)) := by
  have hlen : ¬ req.Comments.length = 0 := fun h0 => hne (List.length_eq_zero.mp h0)
  have hfr := SaveCommentsLoop_frame req.JobID req.Comments h.db 0 0
  unfold DataHandler.ProcessData
  simp only [hlen, if_false]
  unfold MySQLDB.SaveComments
  generalize MySQLDB.SaveCommentsLoop req.JobID h.db req.Comments 0 0 = r at hfr ⊢
  obtain ⟨⟨p, d, e1⟩, db1⟩ := r
  simp only at hfr
  obtain ⟨hj, hc⟩ := hfr
  cases e1 with
  | some e =>
    simp only [Option.some.injEq, reduceCtorEq, false_implies, and_true]
    rintro e2 rfl
    exact ⟨rfl, hj⟩
  | none =>
    simp only [reduceCtorEq, false_implies, implies_true, true_implies, true_and]
    rcases UpdateJobStatus_cases db1 req.JobID "stored" with ⟨e, hf, hu, hjobs⟩ | ⟨hf, hu, hjobs⟩
    · generalize db1.UpdateJobStatus req.JobID "stored" = u at hu hjobs ⊢
      obtain ⟨ue, db2⟩ := u
      simp only at hu hjobs
      subst hu
      refine ⟨?_, ?_⟩
      · intro e2 he2
        rw [hf] at he2
        obtain rfl := Option.some.inj he2
        exact ⟨rfl, hjobs.trans hj⟩
      · intro hn
        rw [hf] at hn
        exact Option.noConfusion hn
    · generalize db1.UpdateJobStatus req.JobID "stored" = u at hu hjobs ⊢
      obtain ⟨ue, db2⟩ := u
      simp only at hu hjobs
      subst hu
      refine ⟨?_, ?_⟩
      · intro e2 he2
        rw [hf] at he2
        exact Option.noConfusion he2
      · intro _
        refine ⟨rfl, ?_⟩
        rw [hjobs, hj, hc]

theorem restatus_frame (jobID status : String) (clock : Nat) (j : JobRow) :
    (restatus jobID status clock j).id = j.id ∧
    (restatus jobID status clock j).platform = j.platform ∧
    (restatus jobID status clock j).target_url = j.target_url ∧
    (restatus jobID status clock j).max_comments = j.max_comments ∧
    (restatus jobID status clock j).error_message = j.error_message ∧
    (restatus jobID status clock j).created_at = j.created_at ∧
    (j.id = jobID → (restatus jobID status clock j).status = status ∧
      (restatus jobID status clock j).updated_at = clock) ∧
    (j.id ≠ jobID → restatus jobID status clock j = j) := by
  unfold restatus
  by_cases hid : j.id = jobID <;> simp [hid]

theorem hasJob_iff (jobs : List JobRow) (jobID : String) :
    hasJob jobs jobID = true ↔ ∃ j ∈ jobs, j.id = jobID := by
  unfold hasJob
  simp only [List.any_eq_true, decide_eq_true_eq]

theorem upsertJob_status (jobs : List JobRow) (jobID status : String) (clock : Nat) :
    (∃ j ∈ upsertJob jobs jobID status clock, j.id = jobID ∧ j.status = status) ∧
    (∀ j ∈ upsertJob jobs jobID status clock, j.id = jobID → j.status = status) := by
  unfold upsertJob
  cases hh : hasJob jobs jobID with
  | true =>
    simp only [if_true]
    obtain ⟨j0, hj0, hid⟩ := (hasJob_iff jobs jobID).mp hh
    have hf := restatus_frame jobID status clock
    refine ⟨⟨restatus jobID status clock j0, List.mem_map_of_mem _ hj0,
      (hf j0).1.trans hid, ((hf j0).2.2.2.2.2.2.1 hid).1⟩, ?_⟩
    intro j hj hid2
    obtain ⟨j1, -, rfl⟩ := List.mem_map.mp hj
    have hid1 : j1.id = jobID := (hf j1).1.symm.trans hid2
    exact ((hf j1).2.2.2.2.2.2.1 hid1).1
  | false =>
    simp only [Bool.false_eq_true, if_false]
    have hnone : ∀ j ∈ jobs, j.id ≠ jobID := by
      intro j hj hid
      have := (hasJob_iff jobs jobID).mpr ⟨j, hj, hid⟩
      rw [hh] at this
      exact Bool.false_ne_true this
    refine ⟨⟨placeholderRow jobID status clock, by simp, rfl, rfl⟩, ?_⟩
    intro j hj hid
    rcases List.mem_append.mp hj with h1 | h1
    · exact absurd hid (hnone j h1)
    · rw [List.mem_singleton.mp h1]; rfl

end ProcessingAPI

namespace ProcessingAPI

theorem upsertJob_getElem (jobs : List JobRow) (jobID status : String) (clock i : Nat)
    (j : JobRow) (hj : jobs[i]? = some j) :
    (upsertJob jobs jobID status clock)[i]? = some (restatus jobID status clock j) := by
  unfold upsertJob
  cases hh : hasJob jobs jobID with
  | true =>
    simp only [if_true, List.getElem?_map, hj, Option.map_some']
  | false =>
    simp only [Bool.false_eq_true, if_false]
    have hlt : i < jobs.length := by
      by_contra hge
      rw [List.getElem?_eq_none (by omega)] at hj
      exact Option.noConfusion hj
    rw [List.getElem?_append_left hlt, hj]
    have hmem : j ∈ jobs := List.getElem?_mem hj
    have hid : j.id ≠ jobID := by
      intro hid
      have := (hasJob_iff jobs jobID).mpr ⟨j, hmem, hid⟩
      rw [hh] at this
      exact Bool.false_ne_true this
    rw [(restatus_frame jobID status clock j).2.2.2.2.2.2.2 hid]

theorem upsertJob_length (jobs : List JobRow) (jobID status : String) (clock : Nat)
    (hh : hasJob jobs jobID = true) :
    (upsertJob jobs jobID status clock).length = jobs.length := by
  unfold upsertJob
  simp only [hh, if_true, List.length_map]

theorem ProcessData_jobs_any (h : DataHandler) (bind : Except String ProcessRequest) :
    (h.ProcessData bind).2.db.db.jobs = h.db.db.jobs ∨
    ∃ req, bind = .ok req ∧
      (h.ProcessData bind).2.db.db.jobs =
        upsertJob h.db.db.jobs req.JobID "stored" h.db.db.clock := by
  cases bind with
  | error e => exact Or.inl rfl
  | ok req =>
    by_cases hne : req.Comments = []
    · left
      unfold DataHandler.ProcessData
      simp [hne]
    · obtain ⟨t1, t2⟩ := ProcessData_jobs h req hne
      cases hs : (h.db.SaveComments req.JobID req.Comments).1.2.2 with
      | some e => exact Or.inl (t1 e hs).2
      | none =>
        obtain ⟨t3, t4⟩ := t2 hs
        cases hf : (h.db.SaveComments req.JobID req.Comments).2.db.nextFault.1 with
        | some e => exact Or.inl (t3 e hf).2
        | none => exact Or.inr ⟨req, rfl, (t4 hf).2⟩

end ProcessingAPI

/-! # Lemmas on the keys written at creation and on reads -/

namespace CrawlTriggerAPI

theorem CreateCrawlJob_created (h : CrawlHandler) (req : CrawlRequest) (jobID : String)
    (now : GoTime.Time) (hplat : validPlatforms req.Platform = true)
    (hmax : 0 < req.MaxComments ∧ req.MaxComments ≤ 10000)
    (hcreated : (h.CreateCrawlJob (.ok req) jobID now).1 =
      .respond ⟨201, .CrawlResponse { JobID := jobID, Status := "queued" }⟩) :
    (h.CreateCrawlJob (.ok req) jobID now).2.queue.client.keys =
      setKey
        (setKey h.queue.client.keys (dataKey jobID)
          (entry24h (.object (jobDataJSON jobID req now))))
        (statusKey jobID) (entry24h (.text "queued")) := by
  obtain ⟨t1, t2⟩ := CreateCrawlJob_steps h req jobID now hplat hmax
  have hs2 := step2_effect h jobID req now
  have hs3 := step3_effect h jobID req now
  have hs4 := step4_effect h jobID req now
  have h1 : (step1 h jobID req).1 = none := by
    cases hc : (step1 h jobID req).1 with
    | none => rfl
    | some e =>
      rw [t1 e hc] at hcreated
      exact absurd hcreated (failure_ne_created _ _ _)
  obtain ⟨t2a, t2b⟩ := t2 h1
  have h2 : (step2 h jobID req now).1 = none := by
    cases hc : (step2 h jobID req now).1 with
    | none => rfl
    | some e =>
      rw [t2a e hc] at hcreated
      exact absurd hcreated (failure_ne_created _ _ _)
  obtain ⟨t3a, t3b⟩ := t2b h2
  have h3 : (step3 h jobID req now).1 = none := by
    cases hc : (step3 h jobID req now).1 with
    | none => rfl
    | some e =>
      rw [t3a e hc] at hcreated
      exact absurd hcreated (failure_ne_created _ _ _)
  obtain ⟨t4a, t4b⟩ := t3b h3
  have h4 : (step4 h jobID req now).1 = none := by
    cases hc : (step4 h jobID req now).1 with
    | none => rfl
    | some e =>
      rw [t4a e hc] at hcreated
      exact absurd hcreated (failure_ne_created _ _ _)
  rw [t4b h4]
  show (step4 h jobID req now).2.client.keys = _
  rw [hs4.1, hs3.2.1 h3, hs2.2.1 h2]

theorem queue_GetJobStatus_keys (q : RedisQueue) (jobID : String) :
    (q.GetJobStatus jobID).2.client.keys = q.client.keys := by
  unfold RedisQueue.GetJobStatus
  obtain ⟨hst, -⟩ := RedisServer.Get_cases q.client (statusKey jobID)
  have hk := (RedisServer.nextFault_keys q.client).1
  generalize q.client.Get (statusKey jobID) = r at hst ⊢
  obtain ⟨g, r1⟩ := r
  simp only at hst
  subst hst
  cases g <;> exact hk

theorem GetJobData_keys (q : RedisQueue) (jobID : String) :
    (q.GetJobData jobID).2.client.keys = q.client.keys := by
  unfold RedisQueue.GetJobData
  obtain ⟨hst, -⟩ := RedisServer.Get_cases q.client (dataKey jobID)
  have hk := (RedisServer.nextFault_keys q.client).1
  generalize q.client.Get (dataKey jobID) = r at hst ⊢
  obtain ⟨g, r1⟩ := r
  simp only at hst
  subst hst
  cases g with
  | Nil => exact hk
  | err e => exact hk
  | val v => cases v <;> exact hk

theorem GetJobStatus_keys (h : CrawlHandler) (jobID : String) :
    (h.GetJobStatus jobID).2.queue.client.keys = h.queue.client.keys := by
  unfold CrawlHandler.GetJobStatus
  have hd := GetJobData_keys h.queue jobID
  generalize h.queue.GetJobData jobID = r at hd ⊢
  obtain ⟨res, q1⟩ := r
  simp only at hd
  cases res with
  | error e => exact hd
  | ok data =>
    simp only
    have hs := queue_GetJobStatus_keys q1 jobID
    generalize q1.GetJobStatus jobID = r2 at hs ⊢
    obtain ⟨res2, q2⟩ := r2
    simp only at hs
    cases res2 with
    | error e => exact hs.trans hd
    | ok status =>
      simp only
      cases assertString data "created_at" with
      | error msg => exact hs.trans hd
      | ok created =>
        simp only
        cases assertString data "updated_at" with
        | error msg => exact hs.trans hd
        | ok updated =>
          simp only
          cases assertString data "platform" with
          | error msg => exact hs.trans hd
          | ok platform => exact hs.trans hd

end CrawlTriggerAPI

/-! # Claims about the ingestion pipeline (processing-api) -/

namespace ProcessingAPI

/-- C1. For a job with no stored comments and a batch whose inserts all succeed,
`SaveComments` returns `processed` = the number of distinct comment ids of the batch and
`duplicates` = the batch length minus that number, and a following `GetCommentsByJobID`
(whose query completes) returns exactly `processed` records.  The batch need not even be
non-empty. -/
theorem SaveComments_counts_distinct (db : MySQLDB) (jobID : String)
    (comments : List Comment)
    (hfresh : ∀ r ∈ db.db.comments, r.job_id ≠ jobID)
    (hok : (db.SaveComments jobID comments).1.2.2 = none)
    (hquery : (db.SaveComments jobID comments).2.db.nextFault.1 = none) :
    (db.SaveComments jobID comments).1.1 =
      (comments.map (fun c => c.CommentID)).dedup.length ∧
    (db.SaveComments jobID comments).1.2.1 =
      comments.length - (comments.map (fun c => c.CommentID)).dedup.length ∧
    ∃ records,
      ((db.SaveComments jobID comments).2.GetCommentsByJobID jobID).1 = .ok records ∧
      records.length = (db.SaveComments jobID comments).1.1 := by
  unfold MySQLDB.SaveComments at *
  generalize hr : MySQLDB.SaveCommentsLoop jobID db comments 0 0 = r at *
  obtain ⟨⟨p1, d1, e1⟩, db1⟩ := r
  simp only at hok hquery ⊢
  subst hok
  obtain ⟨h1, h2, -, h4, -⟩ := SaveCommentsLoop_ok jobID comments db 0 0 p1 d1 db1 hr
  have hempty : jobComments db.db.comments jobID = [] := by
    unfold jobComments
    rw [List.filter_eq_nil_iff]
    intro r hr
    simpa using hfresh r hr
  have hS : storedIDs db.db.comments jobID = ∅ := by
    unfold storedIDs; rw [hempty]; rfl
  rw [hS, Finset.sdiff_empty, List.card_toFinset, Nat.zero_add] at h1
  rw [hempty] at h4
  refine ⟨h1, ?_, ?_⟩
  · rw [← h1]; omega
  · unfold MySQLDB.GetCommentsByJobID SqlDB.queryCommentsByJob
    unfold SqlDB.nextFault at hquery ⊢
    cases hf : db1.db.faults with
    | nil =>
      refine ⟨_, rfl, ?_⟩
      simp only [List.length_map, List.length_reverse]
      have : (jobComments db1.db.comments jobID).length = p1 := by
        rw [h4]; simp
      exact this
    | cons f rest =>
      rw [hf] at hquery
      simp only at hquery
      subst hquery
      refine ⟨_, rfl, ?_⟩
      simp only [List.length_map, List.length_reverse]
      have : (jobComments db1.db.comments jobID).length = p1 := by
        rw [h4]; simp
      exact this

/-- Witness of C1: the batch of three with one repeated comment id gives `processed = 2`,
`duplicates = 1` and two records on read-back. -/
theorem SaveComments_counts_distinct_witness :
    (sampleStore.SaveComments "job-X" sampleBatch).1 = (2, 1, none) ∧
    ((sampleStore.SaveComments "job-X" sampleBatch).1.1 =
      (sampleBatch.map (fun c => c.CommentID)).dedup.length ∧
    (sampleStore.SaveComments "job-X" sampleBatch).1.2.1 =
      sampleBatch.length - (sampleBatch.map (fun c => c.CommentID)).dedup.length ∧
    ∃ records,
      ((sampleStore.SaveComments "job-X" sampleBatch).2.GetCommentsByJobID "job-X").1 =
        .ok records ∧
      records.length = (sampleStore.SaveComments "job-X" sampleBatch).1.1) :=
  ⟨by decide,
    SaveComments_counts_distinct sampleStore "job-X" sampleBatch (by decide) (by decide)
      (by decide)⟩

/-- C2. Saving the identical batch a second time, with no insert failing in either call,
returns `processed = 0` and `duplicates = N` and leaves the stored comments unchanged. -/
theorem SaveComments_idempotent (db : MySQLDB) (jobID : String) (comments : List Comment)
    (hfirst : (db.SaveComments jobID comments).1.2.2 = none)
    (hsecond :
      ((db.SaveComments jobID comments).2.SaveComments jobID comments).1.2.2 = none) :
    ((db.SaveComments jobID comments).2.SaveComments jobID comments).1.1 = 0 ∧
    ((db.SaveComments jobID comments).2.SaveComments jobID comments).1.2.1 =
      comments.length ∧
    ((db.SaveComments jobID comments).2.SaveComments jobID comments).2.db.comments =
      (db.SaveComments jobID comments).2.db.comments := by
  unfold MySQLDB.SaveComments at *
  generalize hr : MySQLDB.SaveCommentsLoop jobID db comments 0 0 = r at *
  obtain ⟨⟨p1, d1, e1⟩, db1⟩ := r
  simp only at hfirst hsecond ⊢
  subst hfirst
  generalize hr2 : MySQLDB.SaveCommentsLoop jobID db1 comments 0 0 = r2 at *
  obtain ⟨⟨p2, d2, e2⟩, db2⟩ := r2
  simp only at hsecond ⊢
  subst hsecond
  obtain ⟨-, -, h3, -, -⟩ := SaveCommentsLoop_ok jobID comments db 0 0 p1 d1 db1 hr
  have hall : ∀ c ∈ comments, c.CommentID ∈ storedIDs db1.db.comments jobID := by
    intro c hc
    rw [h3]
    exact Finset.mem_union_right _
      (List.mem_toFinset.mpr (List.mem_map_of_mem (fun c => c.CommentID) hc))
  obtain ⟨g1, g2, g3⟩ := SaveCommentsLoop_all_dup jobID comments db1 0 0 p2 d2 db2 hall hr2
  exact ⟨g1, by omega, g3⟩

/-- Witness of C2 on the sample batch: the second call counts three duplicates. -/
theorem SaveComments_idempotent_witness :
    ((sampleStore.SaveComments "job-X" sampleBatch).2.SaveComments "job-X" sampleBatch).1 =
      (0, 3, none) ∧
    (((sampleStore.SaveComments "job-X" sampleBatch).2.SaveComments "job-X"
        sampleBatch).1.1 = 0 ∧
    ((sampleStore.SaveComments "job-X" sampleBatch).2.SaveComments "job-X"
        sampleBatch).1.2.1 = sampleBatch.length ∧
    ((sampleStore.SaveComments "job-X" sampleBatch).2.SaveComments "job-X"
        sampleBatch).2.db.comments =
      (sampleStore.SaveComments "job-X" sampleBatch).2.db.comments) :=
  ⟨by decide,
    SaveComments_idempotent sampleStore "job-X" sampleBatch (by decide) (by decide)⟩

/-- C3. First-write-wins on the key `(job_id, comment_id)`: when two records `a` and `b`
share the key, no row has the key yet, the raw payloads hold only values JSON can carry
and the store completes both statements, then saving `a` and then `b` inserts `a`,
reports `b` as a duplicate (not an error), and afterwards exactly one row has that key.
That row has the job id and, column by column, the field values of `a`: platform,
comment id, username, user id, text, timestamp, likes, replies count, parent comment id,
and as `raw_data` the JSON object with the members of `a.RawData`, each with its own
value.  Nothing of `b` is stored. -/
theorem SaveComment_first_write_wins (db : MySQLDB) (jobID : String) (a b : Comment)
    (hkey : a.CommentID = b.CommentID)
    (hfresh : ∀ r ∈ db.db.comments, ¬ (r.job_id = jobID ∧ r.comment_id = a.CommentID))
    (hsa : ∀ m, a.RawData = some m → ∀ kv ∈ m, kv.2 ≠ GoValue.unsupported)
    (hsb : ∀ m, b.RawData = some m → ∀ kv ∈ m, kv.2 ≠ GoValue.unsupported)
    (hfa : db.db.nextFault.1 = none)
    (hfb : (db.SaveComment jobID a).2.db.nextFault.1 = none) :
    (db.SaveComment jobID a).1 = (false, none) ∧
    ((db.SaveComment jobID a).2.SaveComment jobID b).1 = (true, none) ∧
    ((db.SaveComment jobID a).2.SaveComment jobID b).2.db.comments =
      db.db.comments ++
        [({ job_id := jobID, platform := a.Platform, comment_id := a.CommentID,
             username := a.Username, user_id := a.UserID, text := a.Text,
             timestamp := a.Timestamp, likes := a.Likes, replies_count := a.RepliesCount,
             parent_comment_id := a.ParentCommentID,
             raw_data := a.RawData.map (fun m => m.map (fun kv =>
               (kv.1,
                 match kv.2 with
                 | .nil => JSONValue.null
                 | .bool b => JSONValue.bool b
                 | .int n => JSONValue.number n
                 | .float64 n => JSONValue.number n
                 | .string s => JSONValue.string s
                 | .unsupported => JSONValue.null))) } : CommentRow)] ∧
    (((db.SaveComment jobID a).2.SaveComment jobID b).2.db.comments.filter
        (fun r => decide (r.job_id = jobID ∧ r.comment_id = a.CommentID))) =
      [({ job_id := jobID, platform := a.Platform, comment_id := a.CommentID,
             username := a.Username, user_id := a.UserID, text := a.Text,
             timestamp := a.Timestamp, likes := a.Likes, replies_count := a.RepliesCount,
             parent_comment_id := a.ParentCommentID,
             raw_data := a.RawData.map (fun m => m.map (fun kv =>
               (kv.1,
                 match kv.2 with
                 | .nil => JSONValue.null
                 | .bool b => JSONValue.bool b
                 | .int n => JSONValue.number n
                 | .float64 n => JSONValue.number n
                 | .string s => JSONValue.string s
                 | .unsupported => JSONValue.null))) } : CommentRow)] := by
  have hma := marshalRawData_supported a.RawData hsa
  have hmb := marshalRawData_supported b.RawData hsb
  have hfresh0 : db.db.hasComment jobID a.CommentID = false := by
    cases hc : db.db.hasComment jobID a.CommentID with
    | false => rfl
    | true =>
      unfold SqlDB.hasComment at hc
      obtain ⟨r, hr, hdec⟩ := List.any_eq_true.mp hc
      exact absurd (of_decide_eq_true hdec) (hfresh r hr)
  obtain ⟨h1, h2⟩ := SaveComment_healthy db jobID a _ hma hfa
  rw [hfresh0] at h1 h2
  simp only [Bool.false_eq_true, if_false] at h2
  have hhas : (db.SaveComment jobID a).2.db.hasComment jobID b.CommentID = true := by
    rw [hasComment_iff, h2, storedIDs_append_row, hkey]
    exact Finset.mem_insert_self _ _
  obtain ⟨g1, g2⟩ := SaveComment_healthy (db.SaveComment jobID a).2 jobID b _ hmb hfb
  rw [hhas] at g1 g2
  simp only [if_true] at g2
  have hrows : ((db.SaveComment jobID a).2.SaveComment jobID b).2.db.comments =
      db.db.comments ++
        [({ job_id := jobID, platform := a.Platform, comment_id := a.CommentID,
             username := a.Username, user_id := a.UserID, text := a.Text,
             timestamp := a.Timestamp, likes := a.Likes, replies_count := a.RepliesCount,
             parent_comment_id := a.ParentCommentID,
             raw_data := a.RawData.map (fun m => m.map (fun kv =>
               (kv.1,
                 match kv.2 with
                 | .nil => JSONValue.null
                 | .bool b => JSONValue.bool b
                 | .int n => JSONValue.number n
                 | .float64 n => JSONValue.number n
                 | .string s => JSONValue.string s
                 | .unsupported => JSONValue.null))) } : CommentRow)] := g2.trans h2
  refine ⟨h1, g1, hrows, ?_⟩
  rw [hrows, List.filter_append]
  have hnone : db.db.comments.filter
      (fun r => decide (r.job_id = jobID ∧ r.comment_id = a.CommentID)) = [] := by
    rw [List.filter_eq_nil_iff]
    intro r hr hdec
    exact hfresh r hr (of_decide_eq_true hdec)
  rw [hnone]
  simp

/-- Witness of C3: `sampleB` then `sampleB2` (same id, other fields, other raw payload)
keeps the row of `sampleB`, raw payload included. -/
theorem SaveComment_first_write_wins_witness :
    sampleB.CommentID = sampleB2.CommentID ∧
    sampleB.Text ≠ sampleB2.Text ∧
    sampleB.RawData ≠ sampleB2.RawData ∧
    ((sampleStore.SaveComment "job-X" sampleB).2.SaveComment "job-X" sampleB2).1 =
      (true, none) ∧
    (((sampleStore.SaveComment "job-X" sampleB).2.SaveComment "job-X"
        sampleB2).2.db.comments.filter
        (fun r => decide (r.job_id = "job-X" ∧ r.comment_id = "c-2"))) =
      [{ job_id := "job-X", platform := "instagram", comment_id := "c-2",
         username := "budi", user_id := "u-2", text := "second",
         timestamp := some "2024-05-01 10:00:00", likes := 0, replies_count := 1,
         parent_comment_id := some "c-1",
         raw_data := some [("lang", .string "id")] }] :=
  ⟨by decide, by decide, by decide,
    (SaveComment_first_write_wins sampleStore "job-X" sampleB sampleB2 (by decide)
      (by decide) (by decide) (by decide) (by decide) (by decide)).2.1,
    (SaveComment_first_write_wins sampleStore "job-X" sampleB sampleB2 (by decide)
      (by decide) (by decide) (by decide) (by decide) (by decide)).2.2.2⟩

/-- C4. `SaveComments` is sequential and fail-fast: when the records before index
`k = pre.length` are all saved and the save of the record at index `k` fails with `e`,
the call returns the error together with the counts of exactly the first `k` records
(they add up to `k`), and the stored comments are those after saving the first `k`
records: nothing after index `k` is inserted. -/
theorem SaveComments_fail_fast (db : MySQLDB) (jobID : String) (pre : List Comment)
    (c : Comment) (post : List Comment) (e : String)
    (hpre : (db.SaveComments jobID pre).1.2.2 = none)
    (hfail : ((db.SaveComments jobID pre).2.SaveComment jobID c).1.2 = some e) :
    (db.SaveComments jobID (pre ++ c :: post)).1 =
      ((db.SaveComments jobID pre).1.1, (db.SaveComments jobID pre).1.2.1,
        some ("failed to save comment: " ++ e)) ∧
    (db.SaveComments jobID pre).1.1 + (db.SaveComments jobID pre).1.2.1 = pre.length ∧
    (db.SaveComments jobID (pre ++ c :: post)).2.db.comments =
      (db.SaveComments jobID pre).2.db.comments := by
  unfold MySQLDB.SaveComments at *
  generalize hr : MySQLDB.SaveCommentsLoop jobID db pre 0 0 = r at *
  obtain ⟨⟨p1, d1, e1⟩, db1⟩ := r
  simp only at hpre hfail ⊢
  subst hpre
  obtain ⟨-, hsum, -, -, -⟩ := SaveCommentsLoop_ok jobID pre db 0 0 p1 d1 db1 hr
  rw [SaveCommentsLoop_append jobID pre db 0 0 p1 d1 db1 (c :: post) hr,
    MySQLDB.SaveCommentsLoop]
  rcases SaveComment_cases db1 jobID c with
    ⟨e2, he, hcs, -⟩ | ⟨he, -, -, -⟩ | ⟨raw, -, he, -, -, -⟩
  · generalize db1.SaveComment jobID c = r at hfail he hcs ⊢
    obtain ⟨⟨b, e3⟩, db2⟩ := r
    simp only [Prod.mk.injEq] at he
    obtain ⟨rfl, rfl⟩ := he
    simp only [Option.some.injEq] at hfail
    subst hfail
    exact ⟨rfl, by omega, hcs⟩
  · rw [he] at hfail; simp at hfail
  · rw [he] at hfail; simp at hfail

/-- Witness of C4: on `flakyStore` the second statement fails, so the batch stops at
index 1 with the counts `(1, 0)` of the first record. -/
theorem SaveComments_fail_fast_witness :
    (flakyStore.SaveComments "job-X" sampleBatch).1 =
      (1, 0, some "failed to save comment: failed to insert comment: connection refused") ∧
    ((flakyStore.SaveComments "job-X" ([sampleA] ++ sampleB :: [sampleA2])).1 =
      ((flakyStore.SaveComments "job-X" [sampleA]).1.1,
        (flakyStore.SaveComments "job-X" [sampleA]).1.2.1,
        some ("failed to save comment: " ++ "failed to insert comment: connection refused")) ∧
    (flakyStore.SaveComments "job-X" [sampleA]).1.1 +
        (flakyStore.SaveComments "job-X" [sampleA]).1.2.1 = [sampleA].length ∧
    (flakyStore.SaveComments "job-X" ([sampleA] ++ sampleB :: [sampleA2])).2.db.comments =
      (flakyStore.SaveComments "job-X" [sampleA]).2.db.comments) :=
  ⟨by decide,
    SaveComments_fail_fast flakyStore "job-X" [sampleA] sampleB [sampleA2]
      "failed to insert comment: connection refused" (by decide) (by decide)⟩

/-- C5 as stated fails: on `flakyStore` ingestion of the sample batch stops at the second
record with the partial counts `(1, 0)`, and the response of `ProcessData` is a 500 whose
body has neither a `processed` nor a `duplicates` member. -/
theorem ProcessData_partial_counts_counterexample :
    (flakyStore.SaveComments "job-X" sampleBatch).1 =
      (1, 0, some "failed to save comment: failed to insert comment: connection refused") ∧
    ((⟨flakyStore⟩ : DataHandler).ProcessData (.ok ⟨"job-X", sampleBatch⟩)).1 =
      ⟨500, .H [("error", .string "Failed to save comments"),
        ("details", .string
          "failed to save comment: failed to insert comment: connection refused")]⟩ ∧
    ¬ (∃ p d,
        ((⟨flakyStore⟩ : DataHandler).ProcessData (.ok ⟨"job-X", sampleBatch⟩)).1.body.processed?
          = some p ∧
        ((⟨flakyStore⟩ : DataHandler).ProcessData (.ok ⟨"job-X", sampleBatch⟩)).1.body.duplicates?
          = some d) := by
  refine ⟨by decide, by decide, ?_⟩
  rintro ⟨p, d, hp, -⟩
  have hnone :
      ((⟨flakyStore⟩ : DataHandler).ProcessData (.ok ⟨"job-X", sampleBatch⟩)).1.body.processed?
        = none := by decide
  rw [hnone] at hp
  exact Option.noConfusion hp

/-- C5 (as amended). When `SaveComments` stops with an error, `ProcessData` answers 500
with a body holding only `error` and `details` (the error text): the partial counts
`SaveComments` returned are not in the response. -/
theorem ProcessData_error_drops_counts (h : DataHandler) (req : ProcessRequest)
    (p d : Nat) (err : String) (db1 : MySQLDB)
    (hne : req.Comments ≠ [])
    (hsave : h.db.SaveComments req.JobID req.Comments = ((p, d, some err), db1)) :
    h.ProcessData (.ok req) =
      (⟨500, .H [("error", .string "Failed to save comments"),
          ("details", .string err)]⟩, ⟨db1⟩) ∧
    (h.ProcessData (.ok req)).1.body.processed? = none ∧
    (h.ProcessData (.ok req)).1.body.duplicates? = none := by
  have hlen : ¬ req.Comments.length = 0 := by
    intro h0; exact hne (List.length_eq_zero.mp h0)
  have hmain : h.ProcessData (.ok req) =
      (⟨500, .H [("error", .string "Failed to save comments"),
          ("details", .string err)]⟩, ⟨db1⟩) := by
    unfold DataHandler.ProcessData
    simp only [hlen, if_false, hsave]
  refine ⟨hmain, ?_, ?_⟩
  · rw [hmain]; rfl
  · rw [hmain]; rfl

/-- Witness of the amended C5 on `flakyStore`. -/
theorem ProcessData_error_drops_counts_witness :
    sampleBatch ≠ [] ∧
    (((⟨flakyStore⟩ : DataHandler).ProcessData (.ok ⟨"job-X", sampleBatch⟩)).1.code = 500 ∧
     ((⟨flakyStore⟩ : DataHandler).ProcessData (.ok ⟨"job-X", sampleBatch⟩)).1.body.processed?
        = none) :=
  ⟨by decide,
    by
      have h := ProcessData_error_drops_counts ⟨flakyStore⟩ ⟨"job-X", sampleBatch⟩ 1 0
        "failed to save comment: failed to insert comment: connection refused"
        (flakyStore.SaveComments "job-X" sampleBatch).2 (by decide) (by decide)
      exact ⟨by rw [h.1], h.2.1⟩⟩

end ProcessingAPI

/-! # Claims about job creation and status reads (crawl-trigger-api) -/

namespace CrawlTriggerAPI

/-- C6. For a valid request `CreateCrawlJob` runs the durable insert, the metadata
write, the status key write and the queue push in that order and stops at the first one
that fails: the answer is then a 500 without a `job_id`, and the stores hold exactly the
effects of the steps before it (a failed durable insert leaves the Redis side untouched).
When all four complete the answer is 201 with the job id. -/
theorem CreateCrawlJob_stops_at_first_failure (h : CrawlHandler) (req : CrawlRequest)
    (jobID : String) (now : GoTime.Time) (hplat : validPlatforms req.Platform = true)
    (hmax : 0 < req.MaxComments ∧ req.MaxComments ≤ 10000) :
    (∀ e, (step1 h jobID req).1 = some e →
      (h.CreateCrawlJob (.ok req) jobID now).1 = failure "Failed to create job in database" e ∧
      (h.CreateCrawlJob (.ok req) jobID now).1.jobID? = none ∧
      (h.CreateCrawlJob (.ok req) jobID now).2.db.db.jobs = h.db.db.jobs ∧
      (h.CreateCrawlJob (.ok req) jobID now).2.queue = h.queue) ∧
    ((step1 h jobID req).1 = none →
      (∀ e, (step2 h jobID req now).1 = some e →
        (h.CreateCrawlJob (.ok req) jobID now).1 = failure "Failed to store job data" e ∧
        (h.CreateCrawlJob (.ok req) jobID now).1.jobID? = none ∧
        (h.CreateCrawlJob (.ok req) jobID now).2.db.db.jobs =
          h.db.db.jobs ++ [queuedRow jobID req h.db.db.clock] ∧
        (h.CreateCrawlJob (.ok req) jobID now).2.queue.client.keys = h.queue.client.keys ∧
        (h.CreateCrawlJob (.ok req) jobID now).2.queue.client.crawl_jobs =
          h.queue.client.crawl_jobs) ∧
      ((step2 h jobID req now).1 = none →
        (∀ e, (step3 h jobID req now).1 = some e →
          (h.CreateCrawlJob (.ok req) jobID now).1 = failure "Failed to set job status" e ∧
          (h.CreateCrawlJob (.ok req) jobID now).1.jobID? = none ∧
          (h.CreateCrawlJob (.ok req) jobID now).2.db.db.jobs =
            h.db.db.jobs ++ [queuedRow jobID req h.db.db.clock] ∧
          (h.CreateCrawlJob (.ok req) jobID now).2.queue.client.keys =
            setKey h.queue.client.keys (dataKey jobID)
              (entry24h (.object (jobDataJSON jobID req now))) ∧
          (h.CreateCrawlJob (.ok req) jobID now).2.queue.client.crawl_jobs =
            h.queue.client.crawl_jobs) ∧
        ((step3 h jobID req now).1 = none →
          (∀ e, (step4 h jobID req now).1 = some e →
            (h.CreateCrawlJob (.ok req) jobID now).1 = failure "Failed to queue job" e ∧
            (h.CreateCrawlJob (.ok req) jobID now).1.jobID? = none ∧
            (h.CreateCrawlJob (.ok req) jobID now).2.db.db.jobs =
              h.db.db.jobs ++ [queuedRow jobID req h.db.db.clock] ∧
            (h.CreateCrawlJob (.ok req) jobID now).2.queue.client.keys =
              setKey
                (setKey h.queue.client.keys (dataKey jobID)
                  (entry24h (.object (jobDataJSON jobID req now))))
                (statusKey jobID) (entry24h (.text "queued")) ∧
            (h.CreateCrawlJob (.ok req) jobID now).2.queue.client.crawl_jobs =
              h.queue.client.crawl_jobs) ∧
          ((step4 h jobID req now).1 = none →
            (h.CreateCrawlJob (.ok req) jobID now).1 =
              .respond ⟨201, .CrawlResponse { JobID := jobID, Status := "queued" }⟩ ∧
            (h.CreateCrawlJob (.ok req) jobID now).2.db.db.jobs =
              h.db.db.jobs ++ [queuedRow jobID req h.db.db.clock] ∧
            (h.CreateCrawlJob (.ok req) jobID now).2.queue.client.keys =
              setKey
                (setKey h.queue.client.keys (dataKey jobID)
                  (entry24h (.object (jobDataJSON jobID req now))))
                (statusKey jobID) (entry24h (.text "queued")) ∧
            (h.CreateCrawlJob (.ok req) jobID now).2.queue.client.crawl_jobs =
              .object (jobDataJSON jobID req now) :: h.queue.client.crawl_jobs)))) := by
  obtain ⟨t1, t2⟩ := CreateCrawlJob_steps h req jobID now hplat hmax
  have hjobs := (step1_effect h jobID req).1
  have hrow := (step1_effect h jobID req).2
  have hs2 := step2_effect h jobID req now
  have hs3 := step3_effect h jobID req now
  have hs4 := step4_effect h jobID req now
  refine ⟨?_, ?_⟩
  · intro e he
    rw [t1 e he]
    exact ⟨rfl, rfl, hjobs e he, rfl⟩
  · intro h1
    obtain ⟨t2a, t2b⟩ := t2 h1
    refine ⟨?_, ?_⟩
    · intro e he
      rw [t2a e he]
      have hne : (step2 h jobID req now).1 ≠ none := by rw [he]; exact Option.some_ne_none e
      exact ⟨rfl, rfl, hrow h1, hs2.1 hne, hs2.2.2⟩
    · intro h2
      obtain ⟨t3a, t3b⟩ := t2b h2
      refine ⟨?_, ?_⟩
      · intro e he
        rw [t3a e he]
        have hne : (step3 h jobID req now).1 ≠ none := by rw [he]; exact Option.some_ne_none e
        exact ⟨rfl, rfl, hrow h1, (hs3.1 hne).trans (hs2.2.1 h2), hs3.2.2.trans hs2.2.2⟩
      · intro h3
        obtain ⟨t4a, t4b⟩ := t3b h3
        have hkeys : (step4 h jobID req now).2.client.keys =
            setKey
              (setKey h.queue.client.keys (dataKey jobID)
                (entry24h (.object (jobDataJSON jobID req now))))
              (statusKey jobID) (entry24h (.text "queued")) := by
          rw [hs4.1, hs3.2.1 h3, hs2.2.1 h2]
        refine ⟨?_, ?_⟩
        · intro e he
          rw [t4a e he]
          have hne : (step4 h jobID req now).1 ≠ none := by
            rw [he]; exact Option.some_ne_none e
          exact ⟨rfl, rfl, hrow h1, hkeys,
            ((hs4.2.1 hne).trans hs3.2.2).trans hs2.2.2⟩
        · intro h4
          rw [t4b h4]
          refine ⟨rfl, hrow h1, hkeys, ?_⟩
          show (step4 h jobID req now).2.client.crawl_jobs = _
          rw [hs4.2.2 h4, hs3.2.2, hs2.2.2]

/-- Witness of C6: with the status write failing (second Redis command), the answer is
the 500 of step 3, the durable row and the metadata are written and nothing is queued. -/
theorem CreateCrawlJob_stops_at_first_failure_witness :
    validPlatforms sampleRequest.Platform = true ∧
    (0 < sampleRequest.MaxComments ∧ sampleRequest.MaxComments ≤ 10000) ∧
    (((flakyHandler [none, some "EOF"]).CreateCrawlJob (.ok sampleRequest) "job-1"
        sampleNow).1 = failure "Failed to set job status" "failed to set job status: EOF" ∧
      ((flakyHandler [none, some "EOF"]).CreateCrawlJob (.ok sampleRequest) "job-1"
        sampleNow).1.jobID? = none ∧
      ((flakyHandler [none, some "EOF"]).CreateCrawlJob (.ok sampleRequest) "job-1"
        sampleNow).2.db.db.jobs =
        (flakyHandler [none, some "EOF"]).db.db.jobs ++
          [queuedRow "job-1" sampleRequest (flakyHandler [none, some "EOF"]).db.db.clock] ∧
      ((flakyHandler [none, some "EOF"]).CreateCrawlJob (.ok sampleRequest) "job-1"
        sampleNow).2.queue.client.keys =
        setKey (flakyHandler [none, some "EOF"]).queue.client.keys (dataKey "job-1")
          (entry24h (.object (jobDataJSON "job-1" sampleRequest sampleNow))) ∧
      ((flakyHandler [none, some "EOF"]).CreateCrawlJob (.ok sampleRequest) "job-1"
        sampleNow).2.queue.client.crawl_jobs =
        (flakyHandler [none, some "EOF"]).queue.client.crawl_jobs) :=
  ⟨by decide, by decide,
    (((CreateCrawlJob_stops_at_first_failure (flakyHandler [none, some "EOF"]) sampleRequest
      "job-1" sampleNow (by decide) (by decide)).2 (by decide)).2 (by decide)).1
      "failed to set job status: EOF" (by decide)⟩

/-- C7 as stated fails: when only the queue push fails, the job is durably `queued`,
nothing is on the queue, and yet `GetJobStatus` answers 200 with the job view in status
`queued`, not "not found". -/
theorem orphan_not_found_counterexample :
    (step1 (flakyHandler [none, none, some "EOF"]) "job-1" sampleRequest).1 = none ∧
    ((flakyHandler [none, none, some "EOF"]).CreateCrawlJob (.ok sampleRequest) "job-1"
      sampleNow).1 = failure "Failed to queue job" "failed to push job to queue: EOF" ∧
    ((flakyHandler [none, none, some "EOF"]).CreateCrawlJob (.ok sampleRequest) "job-1"
      sampleNow).2.db.db.jobs = [queuedRow "job-1" sampleRequest 1715913005] ∧
    ((flakyHandler [none, none, some "EOF"]).CreateCrawlJob (.ok sampleRequest) "job-1"
      sampleNow).2.queue.client.crawl_jobs = [] ∧
    (((flakyHandler [none, none, some "EOF"]).CreateCrawlJob (.ok sampleRequest) "job-1"
      sampleNow).2.GetJobStatus "job-1").1 =
      .respond ⟨200, .JobStatusResponse
        { JobID := "job-1", Platform := "instagram", Status := "queued",
          CreatedAt := sampleNow.truncSecond, UpdatedAt := sampleNow.truncSecond,
          ErrorMessage := "" }⟩ ∧
    (((flakyHandler [none, none, some "EOF"]).CreateCrawlJob (.ok sampleRequest) "job-1"
      sampleNow).2.GetJobStatus "job-1").1 ≠ notFound "job-1" := by
  decide

/-- C7 (as amended). When the durable insert of a valid request succeeds and a later step
fails, the durable row is there in status `queued` and the queue is as before.  What
`GetJobStatus` then answers depends on the step: after a failed metadata write (no
metadata for the id before) it is the 404 "Job not found"; after a failed status write
(no status key for the id before) it is a 200 job view with the status `not_found`; after
a failed queue push it is a 200 job view with the status `queued`.  The two views assume
that the two Redis reads complete. -/
theorem orphan_after_partial_failure (h : CrawlHandler) (req : CrawlRequest)
    (jobID : String) (now : GoTime.Time) (hplat : validPlatforms req.Platform = true)
    (hmax : 0 < req.MaxComments ∧ req.MaxComments ≤ 10000)
    (hins : (step1 h jobID req).1 = none) :
    (∀ e, (step2 h jobID req now).1 = some e →
      (h.CreateCrawlJob (.ok req) jobID now).2.db.db.jobs =
        h.db.db.jobs ++ [queuedRow jobID req h.db.db.clock] ∧
      (h.CreateCrawlJob (.ok req) jobID now).2.queue.client.crawl_jobs =
        h.queue.client.crawl_jobs ∧
      (h.queue.client.lookup (dataKey jobID) = none →
        ((h.CreateCrawlJob (.ok req) jobID now).2.GetJobStatus jobID).1 = notFound jobID)) ∧
    ((step2 h jobID req now).1 = none → ∀ e, (step3 h jobID req now).1 = some e →
      (h.CreateCrawlJob (.ok req) jobID now).2.db.db.jobs =
        h.db.db.jobs ++ [queuedRow jobID req h.db.db.clock] ∧
      (h.CreateCrawlJob (.ok req) jobID now).2.queue.client.crawl_jobs =
        h.queue.client.crawl_jobs ∧
      (h.queue.client.lookup (statusKey jobID) = none →
        (h.CreateCrawlJob (.ok req) jobID now).2.queue.client.completes 2 = true →
        ((h.CreateCrawlJob (.ok req) jobID now).2.GetJobStatus jobID).1 =
          .respond ⟨200, .JobStatusResponse (createdView jobID req now "not_found")⟩)) ∧
    ((step2 h jobID req now).1 = none → (step3 h jobID req now).1 = none →
      ∀ e, (step4 h jobID req now).1 = some e →
      (h.CreateCrawlJob (.ok req) jobID now).2.db.db.jobs =
        h.db.db.jobs ++ [queuedRow jobID req h.db.db.clock] ∧
      (h.CreateCrawlJob (.ok req) jobID now).2.queue.client.crawl_jobs =
        h.queue.client.crawl_jobs ∧
      ((h.CreateCrawlJob (.ok req) jobID now).2.queue.client.completes 2 = true →
        ((h.CreateCrawlJob (.ok req) jobID now).2.GetJobStatus jobID).1 =
          .respond ⟨200, .JobStatusResponse (createdView jobID req now "queued")⟩)) := by
  obtain ⟨-, t2⟩ := CreateCrawlJob_steps h req jobID now hplat hmax
  obtain ⟨t2a, t2b⟩ := t2 hins
  have hrow := (step1_effect h jobID req).2 hins
  have hs2 := step2_effect h jobID req now
  have hs3 := step3_effect h jobID req now
  have hs4 := step4_effect h jobID req now
  obtain ⟨hac, hau, hap, hae⟩ := assert_created jobID req now
  refine ⟨?_, ?_, ?_⟩
  · intro e he
    rw [t2a e he]
    have hne : (step2 h jobID req now).1 ≠ none := by rw [he]; exact Option.some_ne_none e
    refine ⟨hrow, hs2.2.2, ?_⟩
    intro habs
    refine (GetJobStatus_absent _ jobID ?_).1
    show lookupKey (step2 h jobID req now).2.client.keys (dataKey jobID) = none
    rw [hs2.1 hne]
    exact habs
  · intro h2 e he
    obtain ⟨t3a, -⟩ := t2b h2
    rw [t3a e he]
    have hne : (step3 h jobID req now).1 ≠ none := by rw [he]; exact Option.some_ne_none e
    have hkeys : (step3 h jobID req now).2.client.keys =
        setKey h.queue.client.keys (dataKey jobID)
          (entry24h (.object (jobDataJSON jobID req now))) :=
      (hs3.1 hne).trans (hs2.2.1 h2)
    refine ⟨hrow, hs3.2.2.trans hs2.2.2, ?_⟩
    intro habs hreads
    have hmeta : (step3 h jobID req now).2.client.lookup (dataKey jobID) =
        some (entry24h (.object (jobDataJSON jobID req now))) := by
      show lookupKey _ _ = _
      rw [hkeys, lookupKey_setKey_same]
    have hstat : (step3 h jobID req now).2.client.lookup (statusKey jobID) = none := by
      show lookupKey _ _ = _
      rw [hkeys, lookupKey_setKey_other _ _ _ _ (statusKey_ne_dataKey jobID jobID)]
      exact habs
    have hv := (GetJobStatus_view
      { queue := (step3 h jobID req now).2, db := (step1 h jobID req).2 } jobID _ _ _ _ _
      hmeta rfl hac hau hap hreads).1
    rw [hv]
    simp only [hstat, hae, createdView]
  · intro h2 h3 e he
    obtain ⟨-, t3b⟩ := t2b h2
    obtain ⟨t4a, -⟩ := t3b h3
    rw [t4a e he]
    have hne : (step4 h jobID req now).1 ≠ none := by rw [he]; exact Option.some_ne_none e
    have hkeys : (step4 h jobID req now).2.client.keys =
        setKey
          (setKey h.queue.client.keys (dataKey jobID)
            (entry24h (.object (jobDataJSON jobID req now))))
          (statusKey jobID) (entry24h (.text "queued")) := by
      rw [hs4.1, hs3.2.1 h3, hs2.2.1 h2]
    refine ⟨hrow, ((hs4.2.1 hne).trans hs3.2.2).trans hs2.2.2, ?_⟩
    intro hreads
    have hmeta : (step4 h jobID req now).2.client.lookup (dataKey jobID) =
        some (entry24h (.object (jobDataJSON jobID req now))) := by
      show lookupKey _ _ = _
      rw [hkeys, lookupKey_setKey_other _ _ _ _ (statusKey_ne_dataKey jobID jobID).symm,
        lookupKey_setKey_same]
    have hstat : (step4 h jobID req now).2.client.lookup (statusKey jobID) =
        some (entry24h (.text "queued")) := by
      show lookupKey _ _ = _
      rw [hkeys, lookupKey_setKey_same]
    have hv := (GetJobStatus_view
      { queue := (step4 h jobID req now).2, db := (step1 h jobID req).2 } jobID _ _ _ _ _
      hmeta rfl hac hau hap hreads).1
    rw [hv]
    simp only [hstat, hae, createdView, entry24h, RedisValue.str]

/-- Witness of the amended C7: the status write fails on empty stores; the row is
`queued`, the queue is empty and the status read is a view with status `not_found`. -/
theorem orphan_after_partial_failure_witness :
    validPlatforms sampleRequest.Platform = true ∧
    (step1 (flakyHandler [none, some "EOF"]) "job-1" sampleRequest).1 = none ∧
    (((flakyHandler [none, some "EOF"]).CreateCrawlJob (.ok sampleRequest) "job-1"
        sampleNow).2.db.db.jobs =
        (flakyHandler [none, some "EOF"]).db.db.jobs ++
          [queuedRow "job-1" sampleRequest (flakyHandler [none, some "EOF"]).db.db.clock] ∧
      ((flakyHandler [none, some "EOF"]).CreateCrawlJob (.ok sampleRequest) "job-1"
        sampleNow).2.queue.client.crawl_jobs =
        (flakyHandler [none, some "EOF"]).queue.client.crawl_jobs ∧
      ((flakyHandler [none, some "EOF"]).queue.client.lookup (statusKey "job-1") = none →
        ((flakyHandler [none, some "EOF"]).CreateCrawlJob (.ok sampleRequest) "job-1"
          sampleNow).2.queue.client.completes 2 = true →
        (((flakyHandler [none, some "EOF"]).CreateCrawlJob (.ok sampleRequest) "job-1"
          sampleNow).2.GetJobStatus "job-1").1 =
          .respond ⟨200, .JobStatusResponse
            (createdView "job-1" sampleRequest sampleNow "not_found")⟩)) :=
  ⟨by decide, by decide,
    (orphan_after_partial_failure (flakyHandler [none, some "EOF"]) sampleRequest "job-1"
      sampleNow (by decide) (by decide) (by decide)).2.1 (by decide)
      "failed to set job status: EOF" (by decide)⟩

/-- C8 as stated fails: with the metadata of `job-1` cached (its embedded status is
`queued`) and no status key, `GetJobStatus` answers with the status `not_found`, not with
the embedded status. -/
theorem status_fallback_counterexample :
    metadataOnlyHandler.queue.client.lookup (dataKey "job-1") =
      some (entry24h (.object (jobDataJSON "job-1" sampleRequest sampleNow))) ∧
    metadataOnlyHandler.queue.client.lookup (statusKey "job-1") = none ∧
    GoMap.get (jsonUnmarshal (jobDataJSON "job-1" sampleRequest sampleNow)) "status" =
      some (.string "queued") ∧
    (metadataOnlyHandler.GetJobStatus "job-1").1 =
      .respond ⟨200, .JobStatusResponse
        { JobID := "job-1", Platform := "instagram", Status := "not_found",
          CreatedAt := sampleNow.truncSecond, UpdatedAt := sampleNow.truncSecond,
          ErrorMessage := "" }⟩ ∧
    (metadataOnlyHandler.GetJobStatus "job-1").1 ≠
      .respond ⟨200, .JobStatusResponse
        { JobID := "job-1", Platform := "instagram", Status := "queued",
          CreatedAt := sampleNow.truncSecond, UpdatedAt := sampleNow.truncSecond,
          ErrorMessage := "" }⟩ := by
  decide

/-- C8 (as amended). When the metadata entry of the job is present, decodes to an object
whose `created_at`, `updated_at` and `platform` are strings, and the two Redis reads
complete, `GetJobStatus` answers 200 with a job view whose status is the value of the
status key if that key is present, and the string `not_found` if it is absent (the status
embedded in the metadata is never used). -/
theorem GetJobStatus_status_source (h : CrawlHandler) (jobID : String) (entry : RedisEntry)
    (o : JSONObject) (created updated platform : String)
    (hmeta : h.queue.client.lookup (dataKey jobID) = some entry)
    (hobj : entry.value = .object o)
    (hc : assertString (jsonUnmarshal o) "created_at" = .ok created)
    (hu : assertString (jsonUnmarshal o) "updated_at" = .ok updated)
    (hp : assertString (jsonUnmarshal o) "platform" = .ok platform)
    (hreads : h.queue.client.completes 2 = true) :
    (∀ s, h.queue.client.lookup (statusKey jobID) = some s →
      (h.GetJobStatus jobID).1 =
        .respond ⟨200, .JobStatusResponse
          { JobID := jobID, Platform := platform, Status := s.value.str,
            CreatedAt := GoTime.parseOrZero created, UpdatedAt := GoTime.parseOrZero updated,
            ErrorMessage :=
              match assertStringOk (jsonUnmarshal o) "error_message" with
              | some errorMsg => errorMsg
              | none => "" }⟩) ∧
    (h.queue.client.lookup (statusKey jobID) = none →
      (h.GetJobStatus jobID).1 =
        .respond ⟨200, .JobStatusResponse
          { JobID := jobID, Platform := platform, Status := "not_found",
            CreatedAt := GoTime.parseOrZero created, UpdatedAt := GoTime.parseOrZero updated,
            ErrorMessage :=
              match assertStringOk (jsonUnmarshal o) "error_message" with
              | some errorMsg => errorMsg
              | none => "" }⟩) := by
  have hv := (GetJobStatus_view h jobID entry o created updated platform hmeta hobj hc hu hp
    hreads).1
  refine ⟨?_, ?_⟩
  · intro s hs
    rw [hv]
    simp only [hs]
  · intro hs
    rw [hv]
    simp only [hs]

/-- Witness of the amended C8: after a complete creation the status key holds `queued`
and that is the status answered. -/
theorem GetJobStatus_status_source_witness :
    (sampleHandler.CreateCrawlJob (.ok sampleRequest) "job-1" sampleNow).2.queue.client.lookup
      (statusKey "job-1") = some (entry24h (.text "queued")) ∧
    ((sampleHandler.CreateCrawlJob (.ok sampleRequest) "job-1" sampleNow).2.GetJobStatus
      "job-1").1 =
      .respond ⟨200, .JobStatusResponse
        { JobID := "job-1", Platform := "instagram",
          Status := (entry24h (.text "queued")).value.str,
          CreatedAt := GoTime.parseOrZero (GoTime.Format sampleNow),
          UpdatedAt := GoTime.parseOrZero (GoTime.Format sampleNow),
          ErrorMessage :=
            match assertStringOk
              (jsonUnmarshal (jobDataJSON "job-1" sampleRequest sampleNow))
              "error_message" with
            | some errorMsg => errorMsg
            | none => "" }⟩ :=
  ⟨by decide,
    (GetJobStatus_status_source
      (sampleHandler.CreateCrawlJob (.ok sampleRequest) "job-1" sampleNow).2 "job-1"
      (entry24h (.object (jobDataJSON "job-1" sampleRequest sampleNow)))
      (jobDataJSON "job-1" sampleRequest sampleNow)
      (GoTime.Format sampleNow) (GoTime.Format sampleNow) "instagram"
      (by decide) rfl rfl rfl rfl (by decide)).1 (entry24h (.text "queued")) (by decide)⟩

/-- C9. When the metadata entry of the job is absent from Redis, `GetJobStatus` answers
404 "Job not found" whatever the status key, the outcome of the read and the MySQL side
are; replacing the MySQL side by any other does not change the answer, and the handler
leaves it as it was. -/
theorem GetJobStatus_absent_not_found (h : CrawlHandler) (jobID : String)
    (habs : h.queue.client.lookup (dataKey jobID) = none) :
    (h.GetJobStatus jobID).1 = notFound jobID ∧
    (∀ db : MySQLDB, ({ h with db := db }.GetJobStatus jobID).1 = notFound jobID) ∧
    (h.GetJobStatus jobID).2.db = h.db := by
  refine ⟨(GetJobStatus_absent h jobID habs).1, ?_, (GetJobStatus_absent h jobID habs).2⟩
  intro db
  exact (GetJobStatus_absent { h with db := db } jobID habs).1

/-- Witness of C9: the job row of `job-1` is durably stored and a status key exists, but
the metadata is not cached. -/
theorem GetJobStatus_absent_not_found_witness :
    ({ metadataOnlyHandler with
        queue := ⟨{ keys := [(statusKey "job-1", entry24h (.text "stored"))],
                    crawl_jobs := [], faults := [] }⟩ } : CrawlHandler).db.db.jobs =
      [queuedRow "job-1" sampleRequest 1715913005] ∧
    (({ metadataOnlyHandler with
        queue := ⟨{ keys := [(statusKey "job-1", entry24h (.text "stored"))],
                    crawl_jobs := [], faults := [] }⟩ } : CrawlHandler).GetJobStatus
      "job-1").1 = notFound "job-1" :=
  ⟨by decide,
    (GetJobStatus_absent_not_found
      { metadataOnlyHandler with
        queue := ⟨{ keys := [(statusKey "job-1", entry24h (.text "stored"))],
                    crawl_jobs := [], faults := [] }⟩ } "job-1" (by decide)).1⟩

/-- C10. When `CreateCrawlJob` answers 201 for a valid request at the clock reading `now`
(a reading `Format` and `Parse` agree on), a `GetJobStatus` for the same id after any
`d` below the 24 hour expiration, with both Redis reads completing and no write in
between, answers 200 (no type assertion fails) with the job id, the requested platform,
the status `queued`, `created_at` and `updated_at` both equal to `now` at whole-second
precision, and no error message. -/
theorem status_after_create (h : CrawlHandler) (req : CrawlRequest) (jobID : String)
    (now : GoTime.Time) (d : Nat)
    (hplat : validPlatforms req.Platform = true)
    (hmax : 0 < req.MaxComments ∧ req.MaxComments ≤ 10000)
    (hnow : now.valid)
    (hcreated : (h.CreateCrawlJob (.ok req) jobID now).1 =
      .respond ⟨201, .CrawlResponse { JobID := jobID, Status := "queued" }⟩)
    (hd : d < expiration24h)
    (hreads :
      ((h.CreateCrawlJob (.ok req) jobID now).2.elapse d).queue.client.completes 2 = true) :
    (((h.CreateCrawlJob (.ok req) jobID now).2.elapse d).GetJobStatus jobID).1 =
      .respond ⟨200, .JobStatusResponse
        { JobID := jobID, Platform := req.Platform, Status := "queued",
          CreatedAt := now.truncSecond, UpdatedAt := now.truncSecond,
          ErrorMessage := "" }⟩ := by
  obtain ⟨t1, t2⟩ := CreateCrawlJob_steps h req jobID now hplat hmax
  have hs2 := step2_effect h jobID req now
  have hs3 := step3_effect h jobID req now
  have hs4 := step4_effect h jobID req now
  obtain ⟨hac, hau, hap, hae⟩ := assert_created jobID req now
  have h1 : (step1 h jobID req).1 = none := by
    cases hc : (step1 h jobID req).1 with
    | none => rfl
    | some e =>
      rw [t1 e hc] at hcreated
      exact absurd hcreated (failure_ne_created _ _ _)
  obtain ⟨t2a, t2b⟩ := t2 h1
  have h2 : (step2 h jobID req now).1 = none := by
    cases hc : (step2 h jobID req now).1 with
    | none => rfl
    | some e =>
      rw [t2a e hc] at hcreated
      exact absurd hcreated (failure_ne_created _ _ _)
  obtain ⟨t3a, t3b⟩ := t2b h2
  have h3 : (step3 h jobID req now).1 = none := by
    cases hc : (step3 h jobID req now).1 with
    | none => rfl
    | some e =>
      rw [t3a e hc] at hcreated
      exact absurd hcreated (failure_ne_created _ _ _)
  obtain ⟨t4a, t4b⟩ := t3b h3
  have h4 : (step4 h jobID req now).1 = none := by
    cases hc : (step4 h jobID req now).1 with
    | none => rfl
    | some e =>
      rw [t4a e hc] at hcreated
      exact absurd hcreated (failure_ne_created _ _ _)
  have hkeys : (step4 h jobID req now).2.client.keys =
      setKey
        (setKey h.queue.client.keys (dataKey jobID)
          (entry24h (.object (jobDataJSON jobID req now))))
        (statusKey jobID) (entry24h (.text "queued")) := by
    rw [hs4.1, hs3.2.1 h3, hs2.2.1 h2]
  rw [t4b h4] at hreads ⊢
  have hmeta0 : lookupKey (step4 h jobID req now).2.client.keys (dataKey jobID) =
      some { value := .object (jobDataJSON jobID req now), ttl := some expiration24h } := by
    rw [hkeys, lookupKey_setKey_other _ _ _ _ (statusKey_ne_dataKey jobID jobID).symm,
      lookupKey_setKey_same]
    rfl
  have hstat0 : lookupKey (step4 h jobID req now).2.client.keys (statusKey jobID) =
      some { value := .text "queued", ttl := some expiration24h } := by
    rw [hkeys, lookupKey_setKey_same]
    rfl
  have hmeta := lookupKey_elapse _ _ _ _ d hd hmeta0
  have hstat := lookupKey_elapse _ _ _ _ d hd hstat0
  have hv := (GetJobStatus_view
    (CrawlHandler.elapse { queue := (step4 h jobID req now).2, db := (step1 h jobID req).2 } d)
    jobID _ _ _ _ _ hmeta rfl hac hau hap hreads).1
  rw [hv]
  have hstat2 : (CrawlHandler.elapse
      { queue := (step4 h jobID req now).2, db := (step1 h jobID req).2 } d).queue.client.lookup
      (statusKey jobID) = some { value := .text "queued", ttl := some (expiration24h - d) } :=
    hstat
  have hparse : GoTime.parseOrZero (GoTime.Format now) = now.truncSecond := by
    unfold GoTime.parseOrZero
    rw [GoTime.parseRFC3339_Format now hnow]
  simp only [hstat2, hae, hparse, RedisValue.str]

/-- Witness of C10 on empty stores, read back twelve hours later. -/
theorem status_after_create_witness :
    sampleNow.valid ∧
    (sampleHandler.CreateCrawlJob (.ok sampleRequest) "job-1" sampleNow).1 =
      .respond ⟨201, .CrawlResponse { JobID := "job-1", Status := "queued" }⟩ ∧
    (((sampleHandler.CreateCrawlJob (.ok sampleRequest) "job-1" sampleNow).2.elapse
        (12 * 3600000000000)).GetJobStatus "job-1").1 =
      .respond ⟨200, .JobStatusResponse
        { JobID := "job-1", Platform := sampleRequest.Platform, Status := "queued",
          CreatedAt := sampleNow.truncSecond, UpdatedAt := sampleNow.truncSecond,
          ErrorMessage := "" }⟩ :=
  ⟨by decide, by decide,
    status_after_create sampleHandler sampleRequest "job-1" sampleNow (12 * 3600000000000)
      (by decide) (by decide) (by decide) (by decide) (by decide) (by decide)⟩

end CrawlTriggerAPI

/-! # Claims about the durable job status -/

namespace ProcessingAPI

/-- C11. After a `ProcessData` call on a non-empty batch in which every insert succeeds
and the status upsert completes, the answer is 200 and the job has a row with status
`stored`: when it had no row, the row `(id, 'unknown', 'unknown', 0, 'stored')` is
appended; when it had one, the table keeps its length, each row of the job gets status
`stored` and `updated_at` = server time with `platform`, `target_url`, `max_comments`,
`created_at` (and `error_message`) as before, and rows of other jobs are untouched.  When
an insert of the batch fails, the table `jobs` is exactly as before (and so it is when
the upsert statement itself fails, which is answered with a 500). -/
theorem ProcessData_marks_stored (h : DataHandler) (req : ProcessRequest)
    (hne : req.Comments ≠ []) :
    ((h.db.SaveComments req.JobID req.Comments).1.2.2 = none →
      (h.db.SaveComments req.JobID req.Comments).2.db.nextFault.1 = none →
      (h.ProcessData (.ok req)).1.code = 200 ∧
      (∃ j ∈ (h.ProcessData (.ok req)).2.db.db.jobs, j.id = req.JobID ∧ j.status = "stored") ∧
      (∀ j ∈ (h.ProcessData (.ok req)).2.db.db.jobs, j.id = req.JobID → j.status = "stored") ∧
      (hasJob h.db.db.jobs req.JobID = false →
        (h.ProcessData (.ok req)).2.db.db.jobs =
          h.db.db.jobs ++
            [{ id := req.JobID, platform := "unknown", target_url := "unknown",
               max_comments := 0, status := "stored", error_message := none,
               created_at := h.db.db.clock, updated_at := h.db.db.clock }]) ∧
      (hasJob h.db.db.jobs req.JobID = true →
        (h.ProcessData (.ok req)).2.db.db.jobs.length = h.db.db.jobs.length ∧
        ∀ (i : Nat) (j : JobRow), h.db.db.jobs[i]? = some j →
          ∃ j1, (h.ProcessData (.ok req)).2.db.db.jobs[i]? = some j1 ∧
            j1.id = j.id ∧ j1.platform = j.platform ∧ j1.target_url = j.target_url ∧
            j1.max_comments = j.max_comments ∧ j1.error_message = j.error_message ∧
            j1.created_at = j.created_at ∧
            (j.id = req.JobID → j1.status = "stored" ∧ j1.updated_at = h.db.db.clock) ∧
            (j.id ≠ req.JobID → j1 = j))) ∧
    (∀ e, (h.db.SaveComments req.JobID req.Comments).1.2.2 = some e →
      (h.ProcessData (.ok req)).2.db.db.jobs = h.db.db.jobs) ∧
    ((h.db.SaveComments req.JobID req.Comments).1.2.2 = none →
      ∀ e, (h.db.SaveComments req.JobID req.Comments).2.db.nextFault.1 = some e →
      (h.ProcessData (.ok req)).1.code = 500 ∧
      (h.ProcessData (.ok req)).2.db.db.jobs = h.db.db.jobs) := by
  obtain ⟨t1, t2⟩ := ProcessData_jobs h req hne
  refine ⟨?_, fun e he => (t1 e he).2,
    fun hs e he => ⟨by rw [((t2 hs).1 e he).1], ((t2 hs).1 e he).2⟩⟩
  intro hs hf
  obtain ⟨hresp, hjobs⟩ := (t2 hs).2 hf
  rw [hjobs, hresp]
  obtain ⟨hex, hall⟩ := upsertJob_status h.db.db.jobs req.JobID "stored" h.db.db.clock
  refine ⟨rfl, hex, hall, ?_, ?_⟩
  · intro hno
    unfold upsertJob
    simp only [hno, Bool.false_eq_true, if_false, placeholderRow]
  · intro hyes
    refine ⟨upsertJob_length _ _ _ _ hyes, ?_⟩
    intro i j hj
    exact ⟨_, upsertJob_getElem _ _ _ _ _ _ hj,
      restatus_frame req.JobID "stored" h.db.db.clock j⟩

/-- Witness of C11 on a store that holds `job-X` in status `queued`: after the sample
batch the row is `stored`, with its platform and creation time as before. -/
theorem ProcessData_marks_stored_witness :
    sampleBatch ≠ [] ∧
    ((⟨jobStore "queued"⟩ : DataHandler).ProcessData (.ok ⟨"job-X", sampleBatch⟩)).2.db.db.jobs =
      [{ sampleJob "stored" with updated_at := 100 },
        { sampleJob "running" with id := "job-Y" }] ∧
    (((⟨jobStore "queued"⟩ : DataHandler).ProcessData (.ok ⟨"job-X", sampleBatch⟩)).1.code = 200 ∧
     ∃ j ∈ ((⟨jobStore "queued"⟩ : DataHandler).ProcessData
        (.ok ⟨"job-X", sampleBatch⟩)).2.db.db.jobs,
      j.id = "job-X" ∧ j.status = "stored") :=
  ⟨by decide, by decide,
    by
      have hw := (ProcessData_marks_stored ⟨jobStore "queued"⟩ ⟨"job-X", sampleBatch⟩
        (by decide)).1 (by decide) (by decide)
      exact ⟨hw.1, hw.2.1⟩⟩

/-- C12 as stated fails: `job-X` is durably `failed`; `ProcessData` of the sample batch
answers 200 and the job is `stored` afterwards. -/
theorem failed_moved_to_stored_counterexample :
    jobStatus (jobStore "failed").db.jobs "job-X" = some "failed" ∧
    ((⟨jobStore "failed"⟩ : DataHandler).ProcessData (.ok ⟨"job-X", sampleBatch⟩)).1.code = 200 ∧
    jobStatus ((⟨jobStore "failed"⟩ : DataHandler).ProcessData
      (.ok ⟨"job-X", sampleBatch⟩)).2.db.db.jobs "job-X" = some "stored" ∧
    ¬ (jobStatus ((⟨jobStore "failed"⟩ : DataHandler).ProcessData
        (.ok ⟨"job-X", sampleBatch⟩)).2.db.db.jobs "job-X" =
      jobStatus (jobStore "failed").db.jobs "job-X") := by
  decide

/-- C12 (as amended). No status is terminal in the code.  Either `UpdateJobStatus`, when
its statement completes, leaves every row of the job with the status it was given,
whatever the status was; a `ProcessData` call that succeeds leaves every row of the job
in status `stored`, whatever the status was (so a `failed` job becomes `stored`).  What
does hold: `ProcessData`, with any request and any outcome, keeps a row that is `stored`
in status `stored`. -/
theorem status_overwritten_not_terminal :
    (∀ (db : MySQLDB) (jobID status : String), db.db.nextFault.1 = none →
      ∀ j ∈ (db.UpdateJobStatus jobID status).2.db.jobs, j.id = jobID → j.status = status) ∧
    (∀ (m : CrawlTriggerAPI.MySQLDB) (jobID status : String) (errorMessage : Option String),
      m.db.nextFault.1 = none →
      ∀ j ∈ (m.UpdateJobStatus jobID status errorMessage).2.db.jobs,
        j.id = jobID → j.status = status) ∧
    (∀ (h : DataHandler) (req : ProcessRequest), req.Comments ≠ [] →
      (h.db.SaveComments req.JobID req.Comments).1.2.2 = none →
      (h.db.SaveComments req.JobID req.Comments).2.db.nextFault.1 = none →
      ∀ j ∈ (h.ProcessData (.ok req)).2.db.db.jobs, j.id = req.JobID → j.status = "stored") ∧
    (∀ (h : DataHandler) (bind : Except String ProcessRequest) (i : Nat) (j : JobRow),
      h.db.db.jobs[i]? = some j → j.status = "stored" →
      ∃ j1, (h.ProcessData bind).2.db.db.jobs[i]? = some j1 ∧ j1.id = j.id ∧
        j1.status = "stored") := by
  refine ⟨?_, ?_, ?_, ?_⟩
  · intro db jobID status hf j hj hid
    rcases UpdateJobStatus_cases db jobID status with ⟨e, he, -, -⟩ | ⟨-, -, hjobs⟩
    · rw [hf] at he; exact Option.noConfusion he
    · rw [hjobs] at hj
      exact (upsertJob_status db.db.jobs jobID status db.db.clock).2 j hj hid
  · intro m jobID status errorMessage hf j hj hid
    unfold CrawlTriggerAPI.MySQLDB.UpdateJobStatus at hj
    generalize m.db.nextFault = nf at hf hj
    obtain ⟨f, db1⟩ := nf
    simp only at hf
    subst hf
    simp only [List.mem_map] at hj
    obtain ⟨j0, -, rfl⟩ := hj
    by_cases h0 : j0.id = jobID
    · cases errorMessage <;> simp [h0]
    · simp only [h0, if_false] at hid
  · intro h req hne hs hf j hj hid
    obtain ⟨-, t2⟩ := ProcessData_jobs h req hne
    rw [((t2 hs).2 hf).2] at hj
    exact (upsertJob_status h.db.db.jobs req.JobID "stored" h.db.db.clock).2 j hj hid
  · intro h bind i j hj hst
    rcases ProcessData_jobs_any h bind with hsame | ⟨req, -, hup⟩
    · rw [hsame]
      exact ⟨j, hj, rfl, hst⟩
    · rw [hup]
      refine ⟨_, upsertJob_getElem _ _ _ _ _ _ hj, ?_, ?_⟩
      · exact (restatus_frame req.JobID "stored" h.db.db.clock j).1
      · by_cases hid : j.id = req.JobID
        · exact ((restatus_frame req.JobID "stored" h.db.db.clock j).2.2.2.2.2.2.1 hid).1
        · rw [(restatus_frame req.JobID "stored" h.db.db.clock j).2.2.2.2.2.2.2 hid]
          exact hst

/-- Witness of the amended C12: a successful `ProcessData` on the `failed` job leaves its
row `stored`, and on the `stored` job leaves it `stored`. -/
theorem status_overwritten_not_terminal_witness :
    (∀ j ∈ ((⟨jobStore "failed"⟩ : DataHandler).ProcessData
        (.ok ⟨"job-X", sampleBatch⟩)).2.db.db.jobs,
      j.id = "job-X" → j.status = "stored") ∧
    (∃ j1, ((⟨jobStore "stored"⟩ : DataHandler).ProcessData
        (.ok ⟨"job-X", sampleBatch⟩)).2.db.db.jobs[0]? = some j1 ∧
      j1.id = (sampleJob "stored").id ∧ j1.status = "stored") :=
  ⟨status_overwritten_not_terminal.2.2.1 ⟨jobStore "failed"⟩ ⟨"job-X", sampleBatch⟩
      (by decide) (by decide) (by decide),
    status_overwritten_not_terminal.2.2.2 ⟨jobStore "stored"⟩ (.ok ⟨"job-X", sampleBatch⟩) 0
      (sampleJob "stored") (by decide) (by decide)⟩

end ProcessingAPI

/-! # Claims about the Redis key layout -/

namespace CrawlTriggerAPI

/-- C13 as stated fails on the key names: after a complete creation of `job-1` there is
no key `status:job-1` and no key `meta:job-1`; the keys written are `job_status:job-1`
and `job_data:job-1`. -/
theorem key_layout_counterexample :
    (sampleHandler.CreateCrawlJob (.ok sampleRequest) "job-1" sampleNow).1 =
      .respond ⟨201, .CrawlResponse { JobID := "job-1", Status := "queued" }⟩ ∧
    (sampleHandler.CreateCrawlJob (.ok sampleRequest) "job-1" sampleNow).2.queue.client.lookup
      "status:job-1" = none ∧
    (sampleHandler.CreateCrawlJob (.ok sampleRequest) "job-1" sampleNow).2.queue.client.lookup
      "meta:job-1" = none ∧
    (sampleHandler.CreateCrawlJob (.ok sampleRequest) "job-1"
      sampleNow).2.queue.client.keys.map (fun kv => kv.1) =
      ["job_status:job-1", "job_data:job-1"] := by
  decide

/-- C13 (as amended). The string keys a complete creation writes are exactly
`job_status:<job_id>`, holding the status string `queued`, and `job_data:<job_id>`,
holding the serialized job metadata, both with a time to live of 24 hours; every other
key is as before.  No read (`GetJobStatus` and `GetJobData` of the queue, `GetJobStatus`
of the handler) changes any key, value or time to live. -/
theorem creation_keys_and_ttl (h : CrawlHandler) (req : CrawlRequest) (jobID : String)
    (now : GoTime.Time) (hplat : validPlatforms req.Platform = true)
    (hmax : 0 < req.MaxComments ∧ req.MaxComments ≤ 10000)
    (hcreated : (h.CreateCrawlJob (.ok req) jobID now).1 =
      .respond ⟨201, .CrawlResponse { JobID := jobID, Status := "queued" }⟩) :
    (h.CreateCrawlJob (.ok req) jobID now).2.queue.client.lookup ("job_status:" ++ jobID) =
      some { value := .text "queued", ttl := some (24 * 3600 * 1000000000) } ∧
    (h.CreateCrawlJob (.ok req) jobID now).2.queue.client.lookup ("job_data:" ++ jobID) =
      some { value := .object (jobDataJSON jobID req now),
             ttl := some (24 * 3600 * 1000000000) } ∧
    (∀ key, key ≠ "job_status:" ++ jobID → key ≠ "job_data:" ++ jobID →
      (h.CreateCrawlJob (.ok req) jobID now).2.queue.client.lookup key =
        h.queue.client.lookup key) ∧
    (∀ (q : RedisQueue) (id : String),
      (q.GetJobStatus id).2.client.keys = q.client.keys ∧
      (q.GetJobData id).2.client.keys = q.client.keys) ∧
    (∀ (h1 : CrawlHandler) (id : String),
      (h1.GetJobStatus id).2.queue.client.keys = h1.queue.client.keys) := by
  have hkeys := CreateCrawlJob_created h req jobID now hplat hmax hcreated
  refine ⟨?_, ?_, ?_, fun q id => ⟨queue_GetJobStatus_keys q id, GetJobData_keys q id⟩,
    fun h1 id => GetJobStatus_keys h1 id⟩
  · show lookupKey _ (statusKey jobID) = _
    rw [hkeys, lookupKey_setKey_same]
    rfl
  · show lookupKey _ (dataKey jobID) = _
    rw [hkeys, lookupKey_setKey_other _ _ _ _ (statusKey_ne_dataKey jobID jobID).symm,
      lookupKey_setKey_same]
    rfl
  · intro key hs hd
    show lookupKey _ key = lookupKey _ key
    have hs1 : key ≠ statusKey jobID := hs
    have hd1 : key ≠ dataKey jobID := hd
    rw [hkeys, lookupKey_setKey_other _ _ _ _ hs1, lookupKey_setKey_other _ _ _ _ hd1]

/-- Witness of the amended C13 on empty stores. -/
theorem creation_keys_and_ttl_witness :
    validPlatforms sampleRequest.Platform = true ∧
    (sampleHandler.CreateCrawlJob (.ok sampleRequest) "job-1" sampleNow).1 =
      .respond ⟨201, .CrawlResponse { JobID := "job-1", Status := "queued" }⟩ ∧
    (sampleHandler.CreateCrawlJob (.ok sampleRequest) "job-1" sampleNow).2.queue.client.lookup
      ("job_status:" ++ "job-1") =
      some { value := .text "queued", ttl := some (24 * 3600 * 1000000000) } :=
  ⟨by decide, by decide,
    (creation_keys_and_ttl sampleHandler sampleRequest "job-1" sampleNow (by decide)
      (by decide) (by decide)).1⟩

end CrawlTriggerAPI
